import Mathlib

/-!
Verification development for the reward-settlement core (`reward_logic.py`).

The Python core is shallowly embedded:
* a cell of the tabular dataset is `Cell` (`str`/`num`/`bool`/`null`, where
  `null` models Python `None`; pandas numeric coercion treats it as missing);
* a row is an association list from column name to `Cell`; a data frame is
  a column-name list together with a list of rows;
* Python floats are modelled by exact rationals `ℚ` (the spec makes no
  precision guarantee beyond standard arithmetic, so the exact-arithmetic
  reading of every numeric claim is used);
* fallible code (Python `float(...)` raising on a non-numeric argument)
  returns `Except Err`;
* `str(x)` on a number is modelled by a decimal/ratio rendering `ratStr`;
  no claim depends on the exact rendering of a number as text;
* rule-configuration scalars (pool total, CPM rates, thresholds) are taken
  as rationals directly; the claims under study never exercise malformed
  configuration scalars, only malformed dataset cells.
-/

/-- A dataset cell: Python `str`, `int`/`float`, `bool`, or `None`. -/
inductive Cell where
  | str (s : String)
  | num (q : ℚ)
  | bool (b : Bool)
  | null
  deriving DecidableEq, Repr

/-- A row: association list from column name to cell (first binding wins). -/
def Row := List (String × Cell)
  deriving DecidableEq, Repr

/-- A data frame: ordered column names plus rows keyed by column name.
A key absent from a row models a value missing from that column. -/
structure DataFrame where
  cols : List String
  rows : List Row
  deriving DecidableEq, Repr

/-- Look a column up in a row (`row.get(col)` / `row[col]`). -/
def rowGet : Row → String → Option Cell
  | [], _ => none
  | (k, v) :: t, c => if k = c then some v else rowGet t c

/-- Set a column in a row, replacing in place or appending at the end
(pandas column assignment). -/
def rowSet : Row → String → Cell → Row
  | [], c, v => [(c, v)]
  | (k, w) :: t, c, v => if k = c then (c, v) :: t else (k, w) :: rowSet t c v

/-- Append a column name if it is not present yet. -/
def addCol (cols : List String) (c : String) : List String :=
  if cols.contains c then cols else cols ++ [c]

/-- Does the first list start with the second one? -/
def startsWithL : List Char → List Char → Bool
  | _, [] => true
  | [], _ :: _ => false
  | a :: as, b :: bs => a = b && startsWithL as bs

/-- Substring occurrence on character lists. -/
def containsL : List Char → List Char → Bool
  | [], pat => pat.isEmpty
  | a :: t, pat => startsWithL (a :: t) pat || containsL t pat

/-- Python substring test `needle in hay`. -/
def strContains (hay needle : String) : Bool :=
  containsL hay.data needle.data

/-- Python `str.strip()`: drop leading/trailing whitespace (structural
implementation over the character list, so that proofs can evaluate it). -/
def strTrim (s : String) : String :=
  ⟨((s.data.dropWhile Char.isWhitespace).reverse.dropWhile Char.isWhitespace).reverse⟩

/-- Python `str.lower()` (structural implementation over the characters). -/
def strLower (s : String) : String :=
  ⟨s.data.map Char.toLower⟩

/-- Python truthiness of a cell (`bool(x)`). -/
def pyFalsy : Cell → Bool
  | .str s => s = ""
  | .num q => q = 0
  | .bool b => !b
  | .null => true

/-- Python `str(x)` for a cell. Numbers render via `ratStr`; no claim
depends on the exact text of a rendered number. -/
def ratStr (q : ℚ) : String :=
  if q.den = 1 then toString q.num else toString q.num ++ "/" ++ toString q.den

def pyStr : Cell → String
  | .str s => s
  | .num q => ratStr q
  | .bool b => if b then "True" else "False"
  | .null => "None"

/-- Numeric-literal parser: models the strings accepted by Python
`float(...)` / `pd.to_numeric` (optional sign, digits, optional fraction;
scientific notation is not modelled and no claim uses it). -/
def digitsVal (cs : List Char) : ℚ :=
  cs.foldl (fun acc c => acc * 10 + ((c.toNat : ℚ) - 48)) 0

def parseRat? (s : String) : Option ℚ :=
  let cs := (strTrim s).data
  let signed : Bool × List Char :=
    match cs with
    | '-' :: t => (true, t)
    | '+' :: t => (false, t)
    | _ => (false, cs)
  let intPart := signed.2.takeWhile Char.isDigit
  let rest := signed.2.dropWhile Char.isDigit
  let mag : Option ℚ :=
    match rest with
    | [] => if intPart.isEmpty then none else some (digitsVal intPart)
    | '.' :: frac =>
        if frac.all Char.isDigit && !(intPart.isEmpty && frac.isEmpty) then
          some (digitsVal intPart + digitsVal frac / (10 : ℚ) ^ frac.length)
        else none
    | _ => none
  mag.map (fun m => if signed.1 then -m else m)

/-- Errors the embedded core can signal. -/
inductive Err where
  /-- `ValueError("缺少必要字段: ...")` carrying the missing required columns. -/
  | missingBase (cols : List String)
  /-- `ValueError("缺少账号标识（...）")`. -/
  | missingIdentity
  /-- A `float(...)` conversion failure inside a calculator. -/
  | valueError
  deriving DecidableEq, Repr

/-- Comma-join of a list of names. -/
def joinWith : List String → String
  | [] => ""
  | [s] => s
  | s :: t => s ++ ", " ++ joinWith t

/-- The error message attached to each error, mirroring the Python text;
the list of missing columns is rendered as a comma-joined list (Python
shows the `repr` of the list — either way every missing column name
occurs verbatim in the message). -/
def errMsg : Err → String
  | .missingBase l => "缺少必要字段: " ++ joinWith l
  | .missingIdentity => "缺少账号标识（账号ID/账号名称/账号昵称 至少一列）"
  | .valueError => "could not convert value to float"

/-- Python `float(x)` on a cell: may fail (`Err.valueError`). -/
def pyFloat : Cell → Except Err ℚ
  | .num q => .ok q
  | .bool b => .ok (if b then 1 else 0)
  | .str s =>
      match parseRat? s with
      | some q => .ok q
      | none => .error .valueError
  | .null => .error .valueError

/-- `float(r.get(field, 0) or 0)`: a missing field or a falsy value gives
0; otherwise the value must convert. -/
def floatOrZero : Option Cell → Except Err ℚ
  | none => .ok 0
  | some c => if pyFalsy c then .ok 0 else pyFloat c

/-- `pd.to_numeric(series, errors="coerce").fillna(0)` applied to one
cell: anything that does not parse as a number is coerced to 0. -/
def to_numeric_cell : Cell → ℚ
  | .num q => q
  | .bool b => if b then 1 else 0
  | .str s => (parseRat? s).getD 0
  | .null => 0

/-! ### Constants from `reward_logic.py` -/

def REQUIRED_BASE_COLUMNS : List String := ["渠道", "播放量", "作品类型"]

def IDENTITY_COLUMNS : List String := ["账号ID", "账号名称", "账号昵称"]

def OPTIONAL_TEXT_COLUMNS : List String :=
  ["作品标题", "标题", "内容", "备注", "视频标题", "视频链接"]

def COLUMN_ALIASES : List (String × String) :=
  [("平台", "渠道"), ("平台渠道", "渠道"), ("channel", "渠道"),
   ("播放数", "播放量"), ("播放", "播放量"), ("阅读数", "播放量"),
   ("阅读量", "播放量"), ("播放量(次)", "播放量"), ("浏览量", "播放量"),
   ("点赞数", "点赞"), ("点赞量", "点赞"), ("喜欢", "点赞"), ("love", "点赞"),
   ("comments", "评论数"), ("评论", "评论数"), ("评论量", "评论数"),
   ("视频类型", "作品类型"), ("类型", "作品类型"),
   ("账号", "账号名称"), ("作者", "账号名称"), ("作者昵称", "账号名称"),
   ("达人昵称", "账号名称"), ("博号昵称", "账号名称"),
   ("昵称", "账号昵称"),
   ("达人ID", "账号ID"), ("作者ID", "账号ID"), ("UID", "账号ID"), ("uid", "账号ID"),
   ("期次", "期数"), ("批次", "期数"), ("轮次", "期数"), ("期别", "期数"),
   ("热搜", "B站热搜"), ("热门", "B站热门"),
   ("是否B站热搜", "B站热搜"), ("是否热搜", "B站热搜"),
   ("是否B站热门", "B站热门"), ("是否热门", "B站热门")]

def EXCLUDE_KEYWORDS : List String := ["bug", "建议", "拉踩"]

/-! ### Normalizer primitives -/

/-- `normalize_channel`: classify a raw channel label. -/
def normalize_channel (raw : Cell) : String :=
  match raw with
  | .str s =>
      let text := strLower (strTrim s)
      if ["抖音", "douyin", "视频号", "wechat video", "wx视频号"].any
          (fun k => strContains text k) then "抖音/视频号"
      else if strContains text "小红书" || strContains text "xhs" || text = "red" then
        "小红书"
      else if strContains text "b站" || strContains text "bilibili" || strContains text "哔哩" then
        "B站"
      else strTrim s
  | _ => ""

/-- Alias resolution for one column header (trim, then static alias map). -/
def resolveAlias (c : String) : String :=
  let key := strTrim c
  ((COLUMN_ALIASES.find? (fun p => p.1 = key)).map Prod.snd).getD key

/-- `align_columns`: rename every column header through the alias map. -/
def align_columns (df : DataFrame) : DataFrame :=
  { cols := df.cols.map resolveAlias
    rows := df.rows.map (fun r => r.map (fun p => (resolveAlias p.1, p.2))) }

/-- `detect_exclusion`: concatenate the text of the given columns,
lower-case, and report the first exclusion keyword contained in it. -/
def detect_exclusion (r : Row) (text_columns : List String) : Option String :=
  let haystack :=
    strLower (String.intercalate " "
      (text_columns.map (fun c => (rowGet r c).elim "" pyStr)))
  (EXCLUDE_KEYWORDS.find? (fun kw => strContains haystack (strLower kw))).map
    (fun kw => "含排除关键词:" ++ kw)

/-- `bool_from_any` on an optional cell (`None` for a missing key). -/
def bool_from_any : Option Cell → Bool
  | none => false
  | some (.bool b) => b
  | some .null => false
  | some (.num q) => q != 0
  | some (.str s) =>
      ["1", "true", "yes", "y", "是", "有", "热搜", "热门"].contains (strLower (strTrim s))

/-- `coalesce_row`: first column present, non-null, and non-blank. -/
def coalesce_row (r : Row) (cols : List String) : String :=
  match cols with
  | [] => ""
  | c :: t =>
      match rowGet r c with
      | some v => if v ≠ Cell.null && strTrim (pyStr v) ≠ "" then strTrim (pyStr v)
                  else coalesce_row r t
      | none => coalesce_row r t

/-! ### Rule configuration -/

/-- One tier of the reward table: label, threshold, per-channel amounts. -/
structure TierRow where
  label : String
  threshold : ℚ
  amounts : List (String × Cell)
  deriving DecidableEq, Repr

/-- Pool-share parameters (`base_params["pool"]`); `none` models an
absent dict key, defaulted to 0 on read. -/
structure PoolCfg where
  total : Option ℚ
  min_play : Option ℚ
  deriving DecidableEq, Repr

/-- `base_params`: per-mode parameters (the unused `"mode"` key of the
Python dict carries no behaviour and is not modelled). -/
structure BaseParams where
  tiers : Option (List TierRow)
  cpm : Option (List (String × ℚ))
  pool : Option PoolCfg
  deriving DecidableEq, Repr

structure QualityRule where
  name : String
  field : String
  threshold : ℚ
  add : ℚ
  only_short : Bool
  target_channel : String
  deriving DecidableEq, Repr

structure TimeRule where
  name : String
  keywords : List String
  min_plays : ℚ
  add : ℚ
  deriving DecidableEq, Repr

def DEFAULT_REWARD_TABLE : List TierRow :=
  [⟨"100w+", 1000000, [("抖音/视频号", .num 300), ("小红书", .num 900), ("B站", .num 1800)]⟩,
   ⟨"50w+", 500000, [("抖音/视频号", .num 150), ("小红书", .num 450), ("B站", .num 900)]⟩,
   ⟨"20w+", 200000, [("抖音/视频号", .num 60), ("小红书", .num 180), ("B站", .num 360)]⟩,
   ⟨"10w+", 100000, [("抖音/视频号", .num 30), ("小红书", .num 90), ("B站", .num 180)]⟩,
   ⟨"5w+", 50000, [("抖音/视频号", .num 15), ("小红书", .num 45), ("B站", .num 90)]⟩,
   ⟨"3w+", 30000, [("抖音/视频号", .num 10), ("小红书", .num 30), ("B站", .num 60)]⟩,
   ⟨"1w+", 10000, [("抖音/视频号", .num 5), ("小红书", .num 15), ("B站", .num 30)]⟩]

def DEFAULT_QUALITY_RULES : List QualityRule :=
  [⟨"短视频点赞≥10w", "点赞", 100000, 300, true, "全部"⟩,
   ⟨"播放≥200w", "播放量", 2000000, 1000, false, "全部"⟩,
   ⟨"评论≥5000", "评论数", 5000, 200, false, "全部"⟩]

def DEFAULT_TIME_RULES : List TimeRule :=
  [⟨"热点/主题加50", ["热点推荐", "新春主题", "长期主题", "2月主题"], 10000, 50⟩]

def DEFAULT_BASE_MODE : String := "档位"

def DEFAULT_BASE_PARAMS : BaseParams :=
  { tiers := some DEFAULT_REWARD_TABLE
    cpm := some [("抖音/视频号", 3/10), ("小红书", 9/10), ("B站", 9/5)]
    pool := some ⟨some 10000, some 10000⟩ }

/-- The Python dict shape accepted by `_extract_rule_config`; `none`
models an absent key. -/
structure RuleDict where
  base_mode : Option String
  mode : Option String
  base_params : Option BaseParams
  table : Option (List TierRow)
  base_table : Option (List TierRow)
  quality_rules : Option (List QualityRule)
  excellent_rules : Option (List QualityRule)
  time_rules : Option (List TimeRule)
  extra_rules : Option (List TimeRule)
  deriving DecidableEq, Repr

/-- The dynamically-typed `rule` argument: a bare tier table, a dict,
or anything else. -/
inductive RuleObj where
  | tbl (t : List TierRow)
  | dict (d : RuleDict)
  | other
  deriving DecidableEq, Repr

structure Config where
  base_table : List TierRow
  quality_rules : List QualityRule
  time_rules : List TimeRule
  base_mode : String
  base_params : BaseParams
  deriving DecidableEq, Repr

/-- Python `a or b` on optional lists: `None` and the empty list both
fall through to the next alternative. -/
def orFalsyL {α : Type} (a : Option (List α)) (b : List α) : List α :=
  match a with
  | some l => if l.isEmpty then b else l
  | none => b

/-- `_extract_rule_config`. -/
def extract_rule_config (rule : RuleObj) : Config :=
  match rule with
  | .tbl t =>
      ⟨t, DEFAULT_QUALITY_RULES, DEFAULT_TIME_RULES, DEFAULT_BASE_MODE, DEFAULT_BASE_PARAMS⟩
  | .dict d =>
      let base_mode := (d.base_mode.orElse (fun _ => d.mode)).getD DEFAULT_BASE_MODE
      let base_params := d.base_params.getD DEFAULT_BASE_PARAMS
      let base_df :=
        orFalsyL base_params.tiers
          (orFalsyL d.table (orFalsyL d.base_table DEFAULT_REWARD_TABLE))
      let quality := orFalsyL d.quality_rules (orFalsyL d.excellent_rules DEFAULT_QUALITY_RULES)
      let time := orFalsyL d.time_rules (orFalsyL d.extra_rules DEFAULT_TIME_RULES)
      ⟨base_df, quality, time, base_mode, base_params⟩
  | .other =>
      ⟨DEFAULT_REWARD_TABLE, DEFAULT_QUALITY_RULES, DEFAULT_TIME_RULES,
       DEFAULT_BASE_MODE, DEFAULT_BASE_PARAMS⟩

/-! ### Row accessors shared by the calculators -/

/-- The value of a string column (always a string after normalization). -/
def getStrD (r : Row) (c : String) : String :=
  match rowGet r c with
  | some (.str s) => s
  | _ => ""

/-- The value of a numeric column (always numeric after coercion). -/
def getNumD (r : Row) (c : String) : ℚ :=
  match rowGet r c with
  | some (.num q) => q
  | _ => 0

/-- The coerced play count of a row. -/
def playOf (r : Row) : ℚ := getNumD r "播放量"

/-- `str(r.get(col, ""))`. -/
def textOf (r : Row) (c : String) : String := (rowGet r c).elim "" pyStr

/-- `float(r.get("播放量", 0))`. -/
def playsE (r : Row) : Except Err ℚ := pyFloat ((rowGet r "播放量").getD (.num 0))

/-- `pd.notna` on an optional cell. -/
def notnaO : Option Cell → Bool
  | some v => v ≠ Cell.null
  | none => false

/-! ### Base reward -/

/-- `reward_table.sort_values("阈值", ascending=False)`, modelled with the
stable `mergeSort` (ties keep table order). -/
def sortTiersDesc (table : List TierRow) : List TierRow :=
  List.insertionSort (fun a b => b.threshold ≤ a.threshold) table

/-- `float(row.get(chan, 0) or 0)` for one tier row. -/
def tierAmount (t : TierRow) (chan : String) : Except Err ℚ :=
  floatOrZero ((t.amounts.find? (fun p => p.1 = chan)).map Prod.snd)

/-- `pick_base_reward`. -/
def pick_base_reward (channel : String) (plays : ℚ) (table : List TierRow) :
    Except Err ℚ :=
  if channel = "" then .ok 0
  else
    let chan := normalize_channel (.str channel)
    match (sortTiersDesc table).find? (fun t => decide (t.threshold ≤ plays)) with
    | some t => tierAmount t chan
    | none => .ok 0

/-- `calc_base_reward` (the closure inside `compute_rewards`); `S` is the
precomputed pool-share play-count sum `plays_sum_ref[0]`. -/
def calc_base_reward (cfg : Config) (S : ℚ) (r : Row) : Except Err ℚ :=
  let mode := if cfg.base_mode = "" then DEFAULT_BASE_MODE else cfg.base_mode
  if mode = "CPM" then do
    let cpm := cfg.base_params.cpm.getD []
    let key : Option String :=
      match rowGet r "渠道" with
      | some (.str s) => some s
      | none => some ""
      | some _ => none
    let rate : ℚ :=
      match key.bind (fun k => (cpm.find? (fun p => p.1 = k)).map Prod.snd) with
      | some v => v
      | none => ((cpm.find? (fun p => p.1 = "默认")).map Prod.snd).getD 0
    let plays ← playsE r
    pure (plays / 1000 * rate)
  else if mode = "瓜分" then
    let pool := cfg.base_params.pool.getD ⟨none, none⟩
    let pool_total := pool.total.getD 0
    let min_play := pool.min_play.getD 0
    if S = 0 then pure 0
    else do
      let plays ← playsE r
      if plays < min_play then pure 0
      else pure (pool_total * plays / S)
  else
    pick_base_reward (getStrD r "渠道") (getNumD r "播放量") cfg.base_table

/-! ### Bonuses -/

/-- `calc_time_bonus`. -/
def calc_time_bonus (time_rules : List TimeRule) (r : Row) : Except Err ℚ := do
  let text := textOf r "作品类型"
  let plays ← playsE r
  pure (time_rules.foldl
    (fun acc rule =>
      if plays < rule.min_plays then acc
      else if !rule.keywords.isEmpty &&
              !(rule.keywords.any (fun kw => strContains text kw)) then acc
      else acc + rule.add) 0)

/-- `r["渠道"] != "B站"` negated: does the channel cell equal `"B站"`?
(The `渠道` column is always present when `bilibili_extra` runs; a missing
or non-string channel compares unequal to `"B站"`.) -/
def bChanIsB (r : Row) : Bool :=
  match rowGet r "渠道" with
  | some (.str s) => s = "B站"
  | _ => false

/-- `bool_from_any(r.get("B站热门")) or bool_from_any(r.get("热门"))`. -/
def hotFlagOf (r : Row) : Bool :=
  bool_from_any (rowGet r "B站热门") || bool_from_any (rowGet r "热门")

/-- `bool_from_any(r.get("B站热搜")) or bool_from_any(r.get("热搜"))`. -/
def topFlagOf (r : Row) : Bool :=
  bool_from_any (rowGet r "B站热搜") || bool_from_any (rowGet r "热搜")

def bilibili_extra (r : Row) : ℚ :=
  if !bChanIsB r then 0
  else
    let text := textOf r "作品类型"
    let extra_list : List ℚ :=
      (if strContains text "热搜" then [100] else []) ++
      (if strContains text "热门" then [200] else []) ++
      (if topFlagOf r then [100] else []) ++
      (if hotFlagOf r then [200] else [])
    extra_list.foldl max 0

/-- Is the row short-form: content-type text contains `短视频`, or the
channel is one of the two short-form channels. -/
def isShortRow (r : Row) : Bool :=
  strContains (textOf r "作品类型") "短视频" ||
    (match rowGet r "渠道" with
     | some (.str s) => ["抖音/视频号", "小红书"].contains s
     | _ => false)

/-- `r.get("渠道") != target` negated (a missing or non-string channel
cell never equals a string target). -/
def chanMatches (r : Row) (target : String) : Bool :=
  match rowGet r "渠道" with
  | some (.str s) => s = target
  | _ => false

/-- `quality_extra`. -/
def quality_extra (quality_rules : List QualityRule) (r : Row) : Except Err ℚ :=
  let is_short := isShortRow r
  quality_rules.foldlM
    (fun acc rule =>
      if rule.only_short && !is_short then pure acc
      else if rule.target_channel ≠ "全部" && !(chanMatches r rule.target_channel) then
        pure acc
      else do
        let value ← floatOrZero (rowGet r rule.field)
        if rule.threshold ≤ value then pure (acc + rule.add) else pure acc)
    0

/-! ### Row normalization (steps before the calculators) -/

/-- `pick_identity`. -/
def pick_identity (r : Row) : String :=
  let ident := coalesce_row r ["账号ID", "账号名称", "账号昵称"]
  if ident = "" then "未知账号" else ident

/-- `pick_title` (same present/non-null/non-blank scan as `coalesce_row`). -/
def pick_title (r : Row) : String :=
  let t := coalesce_row r ["视频标题", "作品标题", "标题"]
  if t = "" then "未命名作品" else t

/-- `f"{r.get('账号名称', r.get('账号标识', '未知账号'))}｜{pick_title(r)}"`. -/
def mk_title_key (r : Row) : String :=
  pyStr ((rowGet r "账号名称").getD ((rowGet r "账号标识").getD (.str "未知账号")))
    ++ "｜" ++ pick_title r

/-- `.fillna("默认").astype(str)` on one period cell. -/
def periodStr (c : Cell) : String := if c = .null then "默认" else pyStr c

/-- Channel normalization, numeric coercion, period fill, identity key
for one row (in source statement order). -/
def normCore (hasLike hasCom hasPeriod : Bool) (r : Row) : Row :=
  let r1 := rowSet r "渠道" (.str (normalize_channel ((rowGet r "渠道").getD .null)))
  let r2 := rowSet r1 "播放量" (.num (to_numeric_cell ((rowGet r1 "播放量").getD .null)))
  let r3 := if hasLike then
      rowSet r2 "点赞" (.num (to_numeric_cell ((rowGet r2 "点赞").getD .null)))
    else rowSet r2 "点赞" (.num 0)
  let r4 := if hasCom then
      rowSet r3 "评论数" (.num (to_numeric_cell ((rowGet r3 "评论数").getD .null)))
    else rowSet r3 "评论数" (.num 0)
  let r5 := if hasPeriod then
      rowSet r4 "期数" (.str (periodStr ((rowGet r4 "期数").getD .null)))
    else rowSet r4 "期数" (.str "默认")
  rowSet r5 "账号标识" (.str (pick_identity r5))

/-- One normalized row including the exclusion scan. -/
def normRow (hasLike hasCom hasPeriod : Bool) (tcs : List String) (r : Row) : Row :=
  let r6 := normCore hasLike hasCom hasPeriod r
  rowSet r6 "排除原因" ((detect_exclusion r6 tcs).elim Cell.null Cell.str)

/-- The text-bearing columns present in the table. -/
def textColsFrom (cols : List String) : List String :=
  (REQUIRED_BASE_COLUMNS ++ OPTIONAL_TEXT_COLUMNS).filter (fun c => cols.contains c)

/-- Columns after normalization adds its five derived columns. -/
def normCols (cols : List String) : List String :=
  addCol (addCol (addCol (addCol (addCol cols "点赞") "评论数") "期数") "账号标识") "排除原因"

/-- The dataset-wide normalization pass. -/
def normalizeWork (work : DataFrame) : DataFrame :=
  let hasLike := work.cols.contains "点赞"
  let hasCom := work.cols.contains "评论数"
  let hasPeriod := work.cols.contains "期数"
  let cols1 := normCols work.cols
  let tcs := textColsFrom cols1
  { cols := cols1, rows := work.rows.map (normRow hasLike hasCom hasPeriod tcs) }

/-- The normalized working table of a dataset. -/
def workOf (df : DataFrame) : DataFrame := normalizeWork (align_columns df)

/-! ### Annotation (base + bonuses + totals per row) -/

/-- The tail of the per-row annotation, once the four amounts are known:
total, mark, title key, recomputed total, and force-zeroing for excluded
rows (source statement order). -/
def annotApply (r4 : Row) (b tb pb qb : ℚ) : Row :=
  let total := b + tb + pb + qb
  let r5 := rowSet r4 "总奖励" (.num total)
  let r6 := rowSet r5 "超额标记" (.str "")
  let r7 := rowSet r6 "作品标识" (.str (mk_title_key r6))
  let r8 := rowSet r7 "总奖励" (.num total)
  if notnaO (rowGet r8 "排除原因") then rowSet r8 "总奖励" (.num 0) else r8

/-- All per-row computed columns, in source statement order: base reward,
time bonus, platform bonus, quality bonus, then `annotApply`. -/
def annotateRow (cfg : Config) (S : ℚ) (r : Row) : Except Err Row := do
  let base ← calc_base_reward cfg S r
  let r1 := rowSet r "基础奖励" (.num base)
  let tb ← calc_time_bonus cfg.time_rules r1
  let r2 := rowSet r1 "限时奖励" (.num tb)
  let pb := bilibili_extra r2
  let r3 := rowSet r2 "平台加成" (.num pb)
  let qb ← quality_extra cfg.quality_rules r3
  let r4 := rowSet r3 "优质加成" (.num qb)
  pure (annotApply r4 base tb pb qb)

/-- The status column, assigned after the sort. -/
def statusRow (r : Row) : Row :=
  let mark := getStrD r "超额标记"
  if notnaO (rowGet r "排除原因") then
    rowSet r "状态" ((rowGet r "排除原因").getD Cell.null)
  else
    rowSet r "状态" (.str (if mark ≠ "" then mark else "计入"))

/-! ### Sorting -/

/-- The four sort keys of a result row. -/
def sortKey4 (r : Row) : String × String × String × ℚ :=
  (getStrD r "期数", getStrD r "账号标识", getStrD r "作品标识", getNumD r "总奖励")

/-- One level of a lexicographic comparison chain. -/
def lexStep {α : Type} [LinearOrder α] (x y : α) (rest : Bool) : Bool :=
  if x = y then rest else decide (x < y)

/-- Row comparison: period asc, identity asc, title asc, total reward
desc; ties are `true` so that the stable sort keeps input order. -/
def rowLeB (a b : Row) : Bool :=
  let ka := sortKey4 a
  let kb := sortKey4 b
  lexStep ka.1 kb.1 (lexStep ka.2.1 kb.2.1 (lexStep ka.2.2.1 kb.2.2.1
    (lexStep kb.2.2.2 ka.2.2.2 true)))

/-- `sort_values([...], ascending=[True, True, True, False])`, a stable
multi-key sort (pandas uses the stable `lexsort` for multi-key sorts;
a structural stable insertion sort computes the same list). -/
def sortRows (l : List Row) : List Row :=
  List.insertionSort (fun a b => rowLeB a b = true) l

/-! ### The full computation -/

/-- `Except`-valued `map` over a list, stopping at the first error. -/
def mapE {α β : Type} (f : α → Except Err β) : List α → Except Err (List β)
  | [] => .ok []
  | a :: t =>
      match f a with
      | .error e => .error e
      | .ok b =>
          match mapE f t with
          | .error e => .error e
          | .ok bs => .ok (b :: bs)

/-- The required columns missing after alias resolution. -/
def missingBaseOf (df : DataFrame) : List String :=
  REQUIRED_BASE_COLUMNS.filter (fun c => !(align_columns df).cols.contains c)

/-- Is at least one identity column present after alias resolution? -/
def hasIdentityCol (df : DataFrame) : Bool :=
  IDENTITY_COLUMNS.any (fun c => (align_columns df).cols.contains c)

def DISPLAY_COLS : List String :=
  ["期数", "渠道", "账号标识", "账号ID", "账号名称", "账号昵称", "作品标识",
   "作品类型", "播放量", "点赞", "评论数", "基础奖励", "限时奖励", "平台加成",
   "优质加成", "总奖励", "状态"]

/-- Columns after annotation and status assignment add theirs. -/
def annotCols (cols : List String) : List String :=
  addCol (addCol (addCol (addCol (addCol (addCol (addCol (addCol cols
    "基础奖励") "限时奖励") "平台加成") "优质加成") "总奖励") "超额标记") "作品标识") "状态"

/-- `work[present_display + extra_cols]` column ordering. -/
def finalCols (cols : List String) : List String :=
  let present := DISPLAY_COLS.filter (fun c => cols.contains c)
  present ++ cols.filter (fun c => !present.contains c)

/-- The configured pool minimum-play threshold. -/
def poolMinOf (rule : RuleObj) : ℚ :=
  ((((extract_rule_config rule).base_params.pool).getD ⟨none, none⟩).min_play).getD 0

/-- The configured pool total. -/
def poolTotalOf (rule : RuleObj) : ℚ :=
  ((((extract_rule_config rule).base_params.pool).getD ⟨none, none⟩).total).getD 0

/-- `plays_sum_ref[0]`: in pool-share mode, the play-count sum over the
qualifying rows of the normalized table; otherwise 0. -/
def poolSum (df : DataFrame) (rule : RuleObj) : ℚ :=
  if (extract_rule_config rule).base_mode = "瓜分" then
    (((workOf df).rows.map playOf).filter (fun p => decide (poolMinOf rule ≤ p))).sum
  else 0

/-- `compute_rewards`. -/
def compute_rewards (df : DataFrame) (rule : RuleObj) : Except Err DataFrame :=
  let cfg := extract_rule_config rule
  let missing := missingBaseOf df
  if !missing.isEmpty then .error (.missingBase missing)
  else if !hasIdentityCol df then .error .missingIdentity
  else
    let work1 := workOf df
    let S := poolSum df rule
    match mapE (annotateRow cfg S) work1.rows with
    | .error e => .error e
    | .ok rows2 =>
        .ok { cols := finalCols (annotCols work1.cols)
              rows := (sortRows rows2).map statusRow }

/-- The rows of a successful computation (`[]` on error). -/
def resultRows (df : DataFrame) (rule : RuleObj) : List Row :=
  match compute_rewards df rule with
  | .ok out => out.rows
  | .error _ => []

/-- The annotated rows before the sort, in input order, with the status
column applied (`[]` when the computation fails): the reference order
for stability. -/
def preSortRows (df : DataFrame) (rule : RuleObj) : List Row :=
  if !(missingBaseOf df).isEmpty then []
  else if !hasIdentityCol df then []
  else
    match mapE (annotateRow (extract_rule_config rule) (poolSum df rule))
        (workOf df).rows with
    | .ok rows2 => rows2.map statusRow
    | .error _ => []

/-! ### Definitions supporting the claim statements -/

/-- The columns written by `annotateRow`. -/
def ANNOT_KEYS : List String :=
  ["基础奖励", "限时奖励", "平台加成", "优质加成", "总奖励", "超额标记", "作品标识"]

/-- The text columns used by the exclusion scan for a dataset. -/
def textColsOf (df : DataFrame) : List String :=
  textColsFrom (normCols (align_columns df).cols)

/-- Is the outcome one of the two input-validation errors? -/
def isValidationErr : Except Err DataFrame → Bool
  | .error (.missingBase _) => true
  | .error .missingIdentity => true
  | _ => false

/-- Sum of the base-reward column over a list of rows. -/
def sumBase (l : List Row) : ℚ :=
  (l.map (fun r => getNumD r "基础奖励")).sum

/-- The claimed result ordering: period ascending, identity key
ascending, title key ascending, total reward descending. -/
def resultLe (a b : Row) : Prop :=
  getStrD a "期数" < getStrD b "期数" ∨
  (getStrD a "期数" = getStrD b "期数" ∧
    (getStrD a "账号标识" < getStrD b "账号标识" ∨
      (getStrD a "账号标识" = getStrD b "账号标识" ∧
        (getStrD a "作品标识" < getStrD b "作品标识" ∨
          (getStrD a "作品标识" = getStrD b "作品标识" ∧
            getNumD b "总奖励" ≤ getNumD a "总奖励")))))

/-- The caller-visible state around one `compute_rewards` call: the
caller's dataset and rule bindings, plus the local working table. -/
structure ProcState where
  df : DataFrame
  rule : RuleObj
  work : Option DataFrame
  deriving DecidableEq, Repr

/-- `compute_rewards` with its mutable state made explicit: the body
works on `work` (initialized from a copy of the input, `df.copy()`, and
then rebound after each dataset-wide pass), and no statement assigns to
the fields holding the caller's dataset or rule. Returns the final state
next to the result. -/
def computeProc (s0 : ProcState) : ProcState × Except Err DataFrame :=
  let cfg := extract_rule_config s0.rule
  let s1 : ProcState := { s0 with work := some (align_columns s0.df) }
  if !(missingBaseOf s0.df).isEmpty then
    (s1, .error (.missingBase (missingBaseOf s0.df)))
  else if !hasIdentityCol s0.df then (s1, .error .missingIdentity)
  else
    let s2 : ProcState := { s1 with work := some (workOf s0.df) }
    let S := poolSum s0.df s0.rule
    match mapE (annotateRow cfg S) (workOf s0.df).rows with
    | .error e => (s2, .error e)
    | .ok rows2 =>
        let wOut : DataFrame :=
          { cols := finalCols (annotCols (workOf s0.df).cols)
            rows := (sortRows rows2).map statusRow }
        let s3 : ProcState := { s2 with work := some wOut }
        (s3, .ok wOut)

/-! ### Concrete data used by witnesses and counterexamples -/

/-- A pool-share rule: total 100, minimum-play threshold 0. -/
def wRulePool0 : RuleObj := .dict
  { base_mode := some "瓜分", mode := none
    base_params := some { tiers := none, cpm := none, pool := some ⟨some 100, some 0⟩ }
    table := none, base_table := none, quality_rules := none, excellent_rules := none
    time_rules := none, extra_rules := none }

/-- A pool-share rule: total 100, minimum-play threshold 10000. -/
def wRulePool1 : RuleObj := .dict
  { base_mode := some "瓜分", mode := none
    base_params := some { tiers := none, cpm := none, pool := some ⟨some 100, some 10000⟩ }
    table := none, base_table := none, quality_rules := none, excellent_rules := none
    time_rules := none, extra_rules := none }

/-- One valid row whose play count is 0: it passes a 0 threshold, yet the
qualifying play counts sum to 0. -/
def wDfPool0 : DataFrame :=
  { cols := ["渠道", "播放量", "作品类型", "账号ID"]
    rows := [[("渠道", .str "B站"), ("播放量", .num 0), ("作品类型", .str ""),
              ("账号ID", .str "x")]] }

/-- Two valid rows, plays 5000 and 20000: only the second qualifies at
threshold 10000. -/
def wDfPool1 : DataFrame :=
  { cols := ["渠道", "播放量", "作品类型", "账号ID"]
    rows := [[("渠道", .str "B站"), ("播放量", .num 5000), ("作品类型", .str ""),
              ("账号ID", .str "x")],
             [("渠道", .str "小红书"), ("播放量", .num 20000), ("作品类型", .str ""),
              ("账号ID", .str "y")]] }

/-- One valid row containing the exclusion keyword `建议`. -/
def wDfExcl : DataFrame :=
  { cols := ["渠道", "播放量", "作品类型", "账号名称"]
    rows := [[("渠道", .str "B站"), ("播放量", .num 2000000),
              ("作品类型", .str "包含建议内容"), ("账号名称", .str "B")]] }

/-- A quality rule with threshold 0 on a custom field. -/
def wQRule0 : QualityRule := ⟨"t", "收藏", 0, 50, false, "全部"⟩

/-- A row without the custom field. -/
def wRowNoField : Row := [("渠道", .str "B站")]

/-- A row whose custom field holds a non-empty non-numeric string. -/
def wRowBadField : Row := [("渠道", .str "B站"), ("收藏", .str "abc")]

/-- One valid row with a negative play count. -/
def wDfNeg : DataFrame :=
  { cols := ["渠道", "播放量", "作品类型", "账号ID"]
    rows := [[("渠道", .str "抖音"), ("播放量", .num (-5)), ("作品类型", .str ""),
              ("账号ID", .str "x")]] }

/-- One plain valid row (spec end-to-end example). -/
def wDfOne : DataFrame :=
  { cols := ["渠道", "播放量", "作品类型", "账号名称"]
    rows := [[("渠道", .str "抖音"), ("播放量", .num 150000), ("作品类型", .str ""),
              ("账号名称", .str "A")]] }

/-- Is the outcome a successful table? -/
def okB : Except Err DataFrame → Bool
  | .ok _ => true
  | .error _ => false

/-- The single result row of `compute_rewards wDfNeg .other`. -/
def wRowNeg : Row :=
  [("渠道", .str "抖音/视频号"), ("播放量", .num (-5)), ("作品类型", .str ""),
   ("账号ID", .str "x"), ("点赞", .num 0), ("评论数", .num 0),
   ("期数", .str "默认"), ("账号标识", .str "x"), ("排除原因", .null),
   ("基础奖励", .num 0), ("限时奖励", .num 0), ("平台加成", .num 0),
   ("优质加成", .num 0), ("总奖励", .num 0), ("超额标记", .str ""),
   ("作品标识", .str "x｜未命名作品"), ("状态", .str "计入")]

/-- The single result row of `compute_rewards wDfExcl .other`. -/
def wRowExcl : Row :=
  [("渠道", .str "B站"), ("播放量", .num 2000000), ("作品类型", .str "包含建议内容"),
   ("账号名称", .str "B"), ("点赞", .num 0), ("评论数", .num 0),
   ("期数", .str "默认"), ("账号标识", .str "B"), ("排除原因", .str "含排除关键词:建议"),
   ("基础奖励", .num 1800), ("限时奖励", .num 0), ("平台加成", .num 0),
   ("优质加成", .num 1000), ("总奖励", .num 0), ("超额标记", .str ""),
   ("作品标识", .str "B｜未命名作品"), ("状态", .str "含排除关键词:建议")]

/-! ### Basic lemmas about rows -/

theorem rowGet_rowSet_self (r : Row) (c : String) (v : Cell) :
    rowGet (rowSet r c v) c = some v := by
  induction r with
  | nil => simp [rowSet, rowGet]
  | cons p t ih =>
      obtain ⟨k, w⟩ := p
      by_cases h : k = c
      · simp [rowSet, rowGet, h]
      · simp [rowSet, rowGet, h, ih]

theorem rowGet_rowSet_ne (r : Row) {c c' : String} (h : c' ≠ c) (v : Cell) :
    rowGet (rowSet r c v) c' = rowGet r c' := by
  induction r with
  | nil => simp [rowSet, rowGet, Ne.symm h]
  | cons p t ih =>
      obtain ⟨k, w⟩ := p
      by_cases hk : k = c
      · subst hk
        simp [rowSet, rowGet, Ne.symm h]
      · by_cases hk' : k = c'
        · simp [rowSet, rowGet, hk, hk', h]
        · simp [rowSet, rowGet, hk, hk', ih]

/-! ### Lemmas about `mapE` -/

theorem mapE_ok_forall2 {α β : Type} (f : α → Except Err β) :
    ∀ {l : List α} {l' : List β}, mapE f l = .ok l' →
      List.Forall₂ (fun a b => f a = .ok b) l l' := by
  intro l
  induction l with
  | nil => intro l' h; simp [mapE] at h; simp [← h]
  | cons a t ih =>
      intro l' h
      unfold mapE at h
      cases hfa : f a with
      | error e => simp [hfa] at h
      | ok b =>
          simp only [hfa] at h
          cases hmt : mapE f t with
          | error e => simp [hmt] at h
          | ok bs =>
              simp only [hmt] at h
              cases h
              exact List.Forall₂.cons hfa (ih hmt)

theorem mapE_error_exists {α β : Type} (f : α → Except Err β) :
    ∀ {l : List α} {e : Err}, mapE f l = .error e → ∃ a ∈ l, f a = .error e := by
  intro l
  induction l with
  | nil => intro e h; simp [mapE] at h
  | cons a t ih =>
      intro e h
      unfold mapE at h
      cases hfa : f a with
      | error e' =>
          simp only [hfa] at h
          cases h
          exact ⟨a, List.mem_cons_self a t, hfa⟩
      | ok b =>
          simp only [hfa] at h
          cases hmt : mapE f t with
          | error e' =>
              simp only [hmt] at h
              cases h
              obtain ⟨x, hx, hfx⟩ := ih hmt
              exact ⟨x, List.mem_cons_of_mem a hx, hfx⟩
          | ok bs => simp [hmt] at h

theorem forall2_mem_right {α β : Type} {R : α → β → Prop} :
    ∀ {l : List α} {l' : List β}, List.Forall₂ R l l' → ∀ {b}, b ∈ l' → ∃ a ∈ l, R a b := by
  intro l l' h
  induction h with
  | nil => intro b hb; cases hb
  | cons hR _ ih =>
      intro b hb
      rcases List.mem_cons.mp hb with h1 | h2
      · exact ⟨_, List.mem_cons_self _ _, h1 ▸ hR⟩
      · obtain ⟨a, ha, hr⟩ := ih h2
        exact ⟨a, List.mem_cons_of_mem _ ha, hr⟩

@[simp] theorem exceptBind_ok {ε α β : Type} (a : α) (k : α → Except ε β) :
    (Except.ok a >>= k) = k a := rfl

@[simp] theorem exceptBind_error {ε α β : Type} (e : ε) (k : α → Except ε β) :
    ((Except.error e : Except ε α) >>= k) = .error e := rfl

@[simp] theorem exceptPure_eq_ok {ε α : Type} (a : α) :
    (pure a : Except ε α) = .ok a := rfl



theorem annotApply_get_total (r4 : Row) (b tb pb qb : ℚ) :
    rowGet (annotApply r4 b tb pb qb) "总奖励" =
      some (.num (if notnaO (rowGet r4 "排除原因") then 0 else b + tb + pb + qb)) := by
  by_cases hexc : notnaO (rowGet r4 "排除原因") = true
  · simp [annotApply, rowGet_rowSet_self, rowGet_rowSet_ne, hexc]
  · simp [annotApply, rowGet_rowSet_self, rowGet_rowSet_ne, hexc]

theorem annotApply_get_mark (r4 : Row) (b tb pb qb : ℚ) :
    rowGet (annotApply r4 b tb pb qb) "超额标记" = some (.str "") := by
  by_cases hexc : notnaO (rowGet r4 "排除原因") = true
  · simp [annotApply, rowGet_rowSet_self, rowGet_rowSet_ne, hexc]
  · simp [annotApply, rowGet_rowSet_self, rowGet_rowSet_ne, hexc]

theorem annotApply_get_other (r4 : Row) (b tb pb qb : ℚ) {c : String}
    (h1 : c ≠ "总奖励") (h2 : c ≠ "超额标记") (h3 : c ≠ "作品标识") :
    rowGet (annotApply r4 b tb pb qb) c = rowGet r4 c := by
  by_cases hexc : notnaO (rowGet r4 "排除原因") = true
  · simp [annotApply, rowGet_rowSet_self, rowGet_rowSet_ne, hexc, h1, h2, h3]
  · simp [annotApply, rowGet_rowSet_self, rowGet_rowSet_ne, hexc, h1, h2, h3]

/-- What a successful `annotateRow` guarantees about the produced row. -/
theorem annotateRow_ok (cfg : Config) (S : ℚ) (r r' : Row)
    (h : annotateRow cfg S r = .ok r') :
    ∃ b tb pb qb : ℚ,
      calc_base_reward cfg S r = .ok b ∧
      rowGet r' "基础奖励" = some (.num b) ∧
      rowGet r' "限时奖励" = some (.num tb) ∧
      rowGet r' "平台加成" = some (.num pb) ∧
      rowGet r' "优质加成" = some (.num qb) ∧
      rowGet r' "超额标记" = some (.str "") ∧
      rowGet r' "总奖励" =
        some (.num (if notnaO (rowGet r "排除原因") then 0 else b + tb + pb + qb)) ∧
      (∀ c : String, c ∉ ANNOT_KEYS → rowGet r' c = rowGet r c) := by
  unfold annotateRow at h
  cases hb : calc_base_reward cfg S r with
  | error e => rw [hb] at h; simp at h
  | ok b =>
      rw [hb] at h
      simp only [exceptBind_ok] at h
      cases htb : calc_time_bonus cfg.time_rules (rowSet r "基础奖励" (.num b)) with
      | error e => rw [htb] at h; simp at h
      | ok tb =>
          rw [htb] at h
          simp only [exceptBind_ok] at h
          set r2 := rowSet (rowSet r "基础奖励" (.num b)) "限时奖励" (.num tb) with hr2
          set pb := bilibili_extra r2 with hpb
          set r3 := rowSet r2 "平台加成" (.num pb) with hr3
          cases hqb : quality_extra cfg.quality_rules r3 with
          | error e => rw [hqb] at h; simp at h
          | ok qb =>
              rw [hqb] at h
              simp only [exceptBind_ok, exceptPure_eq_ok, Except.ok.injEq] at h
              subst h
              set r4 := rowSet r3 "优质加成" (.num qb) with hr4
              refine ⟨b, tb, pb, qb, rfl, ?_, ?_, ?_, ?_, ?_, ?_, ?_⟩
              · rw [annotApply_get_other r4 b tb pb qb (by decide) (by decide) (by decide)]
                simp [hr4, hr3, hr2, rowGet_rowSet_self, rowGet_rowSet_ne]
              · rw [annotApply_get_other r4 b tb pb qb (by decide) (by decide) (by decide)]
                simp [hr4, hr3, hr2, rowGet_rowSet_self, rowGet_rowSet_ne]
              · rw [annotApply_get_other r4 b tb pb qb (by decide) (by decide) (by decide)]
                simp [hr4, hr3, hr2, rowGet_rowSet_self, rowGet_rowSet_ne]
              · rw [annotApply_get_other r4 b tb pb qb (by decide) (by decide) (by decide)]
                simp [hr4, rowGet_rowSet_self]
              · exact annotApply_get_mark r4 b tb pb qb
              · rw [annotApply_get_total r4 b tb pb qb]
                have : rowGet r4 "排除原因" = rowGet r "排除原因" := by
                  simp [hr4, hr3, hr2, rowGet_rowSet_ne]
                rw [this]
              · intro c hc
                simp only [ANNOT_KEYS, List.mem_cons, List.not_mem_nil, or_false] at hc
                push_neg at hc
                obtain ⟨n1, n2, n3, n4, n5, n6, n7⟩ := hc
                rw [annotApply_get_other r4 b tb pb qb n5 n6 n7]
                simp [hr4, hr3, hr2, rowGet_rowSet_ne, n1, n2, n3, n4]

/-! ### Status and normalization lemmas -/

theorem statusRow_get_ne (r : Row) {c : String} (h : c ≠ "状态") :
    rowGet (statusRow r) c = rowGet r c := by
  unfold statusRow
  by_cases hexc : notnaO (rowGet r "排除原因") = true <;>
    simp [hexc, rowGet_rowSet_ne, h]

theorem statusRow_get_status (r : Row) :
    rowGet (statusRow r) "状态" =
      some (if notnaO (rowGet r "排除原因") then (rowGet r "排除原因").getD Cell.null
            else .str (if getStrD r "超额标记" ≠ "" then getStrD r "超额标记" else "计入")) := by
  unfold statusRow
  by_cases hexc : notnaO (rowGet r "排除原因") = true <;>
    simp [hexc, rowGet_rowSet_self]

theorem normRow_get_play (hL hC hP : Bool) (tcs : List String) (raw : Row) :
    rowGet (normRow hL hC hP tcs raw) "播放量" =
      some (.num (to_numeric_cell ((rowGet raw "播放量").getD .null))) := by
  cases hL <;> cases hC <;> cases hP <;>
    simp [normRow, normCore, rowGet_rowSet_self, rowGet_rowSet_ne]

theorem normRow_get_excl (hL hC hP : Bool) (tcs : List String) (raw : Row) :
    rowGet (normRow hL hC hP tcs raw) "排除原因" =
      some ((detect_exclusion (normCore hL hC hP raw) tcs).elim Cell.null Cell.str) := by
  simp [normRow, rowGet_rowSet_self]

/-- Every result row arises from annotating a normalized row and then
assigning the status column. -/
theorem resultRows_mem {df : DataFrame} {rule : RuleObj} {r : Row}
    (hr : r ∈ resultRows df rule) :
    ∃ r0 ∈ (workOf df).rows, ∃ rA : Row,
      annotateRow (extract_rule_config rule) (poolSum df rule) r0 = .ok rA ∧
      r = statusRow rA := by
  simp only [resultRows, compute_rewards] at hr
  by_cases h1 : (!(missingBaseOf df).isEmpty) = true
  · rw [if_pos h1] at hr; simp at hr
  · rw [if_neg h1] at hr
    by_cases h2 : (!hasIdentityCol df) = true
    · rw [if_pos h2] at hr; simp at hr
    · rw [if_neg h2] at hr
      cases hmap : mapE (annotateRow (extract_rule_config rule) (poolSum df rule))
          (workOf df).rows with
      | error e => rw [hmap] at hr; simp at hr
      | ok rows2 =>
          rw [hmap] at hr
          simp only [List.mem_map] at hr
          obtain ⟨rA, hrA, hre⟩ := hr
          have hmem : rA ∈ rows2 := by
            simpa [sortRows] using hrA
          obtain ⟨r0, hr0, hok⟩ :=
            forall2_mem_right (mapE_ok_forall2 _ hmap) hmem
          exact ⟨r0, hr0, rA, hok, hre.symm⟩

/-! ### Claim theorems -/

/-- C5: for every row, the platform bonus is 0 unless the channel is
Bilibili (`B站`); for Bilibili rows it is the maximum — not the sum — of
the triggered candidates: 200 when the content-type text contains the
popular marker `热门` or the popular flag is truthy, otherwise 100 when
the text contains the trending-search marker `热搜` or the trending flag
is truthy, otherwise 0. In particular a text containing both markers
with no flags yields 200, not 300. -/
theorem C5_bilibili_bonus_is_max (r : Row) :
    bilibili_extra r =
      if !bChanIsB r then 0
      else if strContains (textOf r "作品类型") "热门" || hotFlagOf r then 200
      else if strContains (textOf r "作品类型") "热搜" || topFlagOf r then 100
      else 0 := by
  unfold bilibili_extra
  cases hB : bChanIsB r
  · simp
  · simp only [hB, Bool.not_true, Bool.false_eq_true, if_false]
    cases h1 : strContains (textOf r "作品类型") "热搜" <;>
    cases h2 : strContains (textOf r "作品类型") "热门" <;>
    cases h3 : topFlagOf r <;>
    cases h4 : hotFlagOf r <;>
      simp [List.foldl, max_def] <;> norm_num

/-- C8: `compute_rewards` is deterministic — two invocations on equal
dataset and rule configuration produce equal result tables (same rows,
values, order and columns). -/
theorem C8_deterministic (df₁ df₂ : DataFrame) (rule₁ rule₂ : RuleObj)
    (h1 : df₁ = df₂) (h2 : rule₁ = rule₂) :
    compute_rewards df₁ rule₁ = compute_rewards df₂ rule₂ := by
  rw [h1, h2]

theorem C8_deterministic_witness :
    compute_rewards wDfOne .other = compute_rewards wDfOne .other :=
  C8_deterministic wDfOne wDfOne .other .other rfl rfl

/-- C9 (amended): the numeric coercion sends unparseable strings and
missing values to 0, and every result row carries a numeric play count —
but negative numeric inputs pass through unchanged, so a row can enter
the calculators with a negative play count (see the counterexample). -/
theorem C9_play_coercion (df : DataFrame) (rule : RuleObj) :
    (∀ s : String, parseRat? s = none → to_numeric_cell (.str s) = 0) ∧
    to_numeric_cell .null = 0 ∧
    (∀ r ∈ resultRows df rule, ∃ q : ℚ, rowGet r "播放量" = some (.num q)) := by
  refine ⟨fun s hs => by simp [to_numeric_cell, hs], rfl, ?_⟩
  intro r hr
  obtain ⟨r0, hr0, rA, hok, hstat⟩ := resultRows_mem hr
  have hplay : ∃ q : ℚ, rowGet r0 "播放量" = some (.num q) := by
    have : r0 ∈ (workOf df).rows := hr0
    simp only [workOf, normalizeWork, List.mem_map] at this
    obtain ⟨raw, _, hraw⟩ := this
    exact ⟨_, hraw ▸ normRow_get_play _ _ _ _ raw⟩
  obtain ⟨q, hq⟩ := hplay
  obtain ⟨b, tb, pb, qb, _, _, _, _, _, _, _, hpres⟩ :=
    annotateRow_ok _ _ _ _ hok
  refine ⟨q, ?_⟩
  rw [hstat, statusRow_get_ne rA (by decide), hpres "播放量" (by decide), hq]

set_option maxRecDepth 8000 in
attribute [local semireducible] Rat.add Rat.mul Rat.inv Rat.sub Rat.ofScientific in
theorem C9_play_coercion_witness : ∃ q : ℚ, rowGet wRowNeg "播放量" = some (.num q) :=
  (C9_play_coercion wDfNeg .other).2.2 wRowNeg (by decide)

set_option maxRecDepth 8000 in
attribute [local semireducible] Rat.add Rat.mul Rat.inv Rat.sub Rat.ofScientific in
/-- C9 counterexample: a valid dataset whose play-count cell is the
number `-5` keeps the value `-5` through normalization — the first (and
only) result row's play count is negative, contradicting the claim that
no row enters the calculators with a negative play count. -/
theorem C9_negative_play_cex :
    (resultRows wDfNeg .other).head?.map (fun r => rowGet r "播放量") =
      some (some (.num (-5))) ∧ ((-5 : ℚ) < 0) := by
  constructor
  · decide
  · norm_num

/-- C10: `compute_rewards` does not modify its inputs. In the stateful
model of the call, every statement writes only the local working table
(created from a copy of the dataset): the final state keeps the caller's
dataset and rule exactly as they were, whether the call returns a table
or raises a validation error, and the returned outcome is exactly
`compute_rewards` of the untouched inputs. -/
theorem C10_inputs_unmodified (s : ProcState) :
    ∃ w : Option DataFrame,
      computeProc s = ({ df := s.df, rule := s.rule, work := w },
                       compute_rewards s.df s.rule) := by
  unfold computeProc compute_rewards
  by_cases h1 : (!(missingBaseOf s.df).isEmpty) = true
  · exact ⟨some (align_columns s.df), by simp only [h1, if_true]⟩
  · by_cases h2 : (!hasIdentityCol s.df) = true
    · exact ⟨some (align_columns s.df), by simp only [h1, h2, if_true, Bool.false_eq_true,
        if_false]⟩
    · cases hmap : mapE (annotateRow (extract_rule_config s.rule) (poolSum s.df s.rule))
          (workOf s.df).rows with
      | error e =>
          exact ⟨some (workOf s.df), by simp [h1, h2, hmap]⟩
      | ok rows2 =>
          exact ⟨some { cols := finalCols (annotCols (workOf s.df).cols)
                        rows := (sortRows rows2).map statusRow },
                 by simp [h1, h2, hmap]⟩

/-! ### Substring facts for the error-message claim -/

theorem startsWithL_append (p r : List Char) : startsWithL (p ++ r) p = true := by
  induction p with
  | nil => simp [startsWithL]
  | cons a t ih => simp [startsWithL, ih]

theorem containsL_nil (t : List Char) : containsL t [] = true := by
  cases t <;> simp [containsL, startsWithL, List.isEmpty]

theorem strData_append (a b : String) : (a ++ b).data = a.data ++ b.data := rfl

theorem containsL_append_mid (s p t : List Char) :
    containsL (s ++ p ++ t) p = true := by
  induction s with
  | nil =>
      cases p with
      | nil => simpa using containsL_nil t
      | cons a q =>
          simp only [List.nil_append, List.cons_append, containsL, Bool.or_eq_true]
          exact Or.inl (by simpa using startsWithL_append (a :: q) t)
  | cons a s' ih =>
      cases p with
      | nil => exact containsL_nil _
      | cons b q =>
          simp only [List.cons_append, containsL, Bool.or_eq_true]
          exact Or.inr (by simpa using ih)

theorem joinWith_split {c : String} : ∀ {l : List String}, c ∈ l →
    ∃ xs ys : List Char, (joinWith l).data = xs ++ c.data ++ ys := by
  intro l
  induction l with
  | nil => intro h; cases h
  | cons a t ih =>
      intro h
      rcases List.mem_cons.mp h with h1 | h2
      · subst h1
        cases t with
        | nil => exact ⟨[], [], by simp [joinWith]⟩
        | cons b u =>
            refine ⟨[], (", " ++ joinWith (b :: u)).data, ?_⟩
            simp [joinWith, strData_append, List.append_assoc]
      · obtain ⟨xs, ys, hxy⟩ := ih h2
        cases t with
        | nil => cases h2
        | cons b u =>
            refine ⟨(a ++ ", ").data ++ xs, ys, ?_⟩
            have hd : (joinWith (a :: b :: u)).data
                = (a ++ ", ").data ++ (joinWith (b :: u)).data := by
              simp [joinWith, strData_append, List.append_assoc]
            rw [hd, hxy]
            simp [List.append_assoc]

/-- Each missing column name occurs verbatim in the error message. -/
theorem errMsg_mentions {c : String} {l : List String} (h : c ∈ l) :
    strContains (errMsg (.missingBase l)) c = true := by
  obtain ⟨xs, ys, hxy⟩ := joinWith_split h
  unfold strContains errMsg
  have : ("缺少必要字段: " ++ joinWith l).data
      = ("缺少必要字段: ".data ++ xs) ++ c.data ++ ys := by
    show "缺少必要字段: ".data ++ (joinWith l).data = _
    rw [hxy]
    simp
  rw [this]
  exact containsL_append_mid _ _ _

/-! ### All calculator errors are float-conversion errors -/

theorem pyFloat_error {c : Cell} {e : Err} (h : pyFloat c = .error e) :
    e = .valueError := by
  cases c <;> simp [pyFloat] at h <;> try exact h.symm
  case str s =>
    cases hp : parseRat? s <;> rw [hp] at h <;> simp at h
    exact h.symm

theorem floatOrZero_error {c : Option Cell} {e : Err} (h : floatOrZero c = .error e) :
    e = .valueError := by
  cases c with
  | none => simp [floatOrZero] at h
  | some v =>
      unfold floatOrZero at h
      by_cases hb : pyFalsy v = true
      · simp [hb] at h
      · simp only [hb, Bool.false_eq_true, if_false] at h
        exact pyFloat_error h

theorem tierAmount_error {t : TierRow} {chan : String} {e : Err}
    (h : tierAmount t chan = .error e) : e = .valueError :=
  floatOrZero_error h

theorem pick_base_reward_error {channel : String} {plays : ℚ} {table : List TierRow}
    {e : Err} (h : pick_base_reward channel plays table = .error e) : e = .valueError := by
  unfold pick_base_reward at h
  by_cases hc : channel = ""
  · simp [hc] at h
  · simp only [hc, if_false] at h
    cases hf : (sortTiersDesc table).find? (fun t => decide (t.threshold ≤ plays)) with
    | none => rw [hf] at h; simp at h
    | some t => rw [hf] at h; exact tierAmount_error h

theorem playsE_error {r : Row} {e : Err} (h : playsE r = .error e) : e = .valueError :=
  pyFloat_error h

theorem calc_base_reward_error {cfg : Config} {S : ℚ} {r : Row} {e : Err}
    (h : calc_base_reward cfg S r = .error e) : e = .valueError := by
  unfold calc_base_reward at h
  by_cases h1 : (if cfg.base_mode = "" then DEFAULT_BASE_MODE else cfg.base_mode) = "CPM"
  · simp only [h1, if_true] at h
    cases hp : playsE r with
    | error e' => rw [hp] at h; simp at h; rw [← h]; exact playsE_error hp
    | ok v => rw [hp] at h; simp at h
  · simp only [h1, if_false] at h
    by_cases h2 : (if cfg.base_mode = "" then DEFAULT_BASE_MODE else cfg.base_mode) = "瓜分"
    · simp only [h2, if_true] at h
      by_cases hS : S = 0
      · simp [hS] at h
      · simp only [hS, if_false] at h
        cases hp : playsE r with
        | error e' =>
            rw [hp] at h; simp at h; rw [← h]; exact playsE_error hp
        | ok v =>
            rw [hp] at h
            simp only [exceptBind_ok] at h
            by_cases hv : v < (((cfg.base_params.pool).getD ⟨none, none⟩).min_play).getD 0
            · simp [hv] at h
            · simp [hv] at h
    · simp only [h2, if_false] at h
      exact pick_base_reward_error h

theorem calc_time_bonus_error {rules : List TimeRule} {r : Row} {e : Err}
    (h : calc_time_bonus rules r = .error e) : e = .valueError := by
  unfold calc_time_bonus at h
  cases hp : playsE r with
  | error e' => rw [hp] at h; simp at h; rw [← h]; exact playsE_error hp
  | ok v => rw [hp] at h; simp at h

theorem quality_fold_error {r : Row} {is_short : Bool} :
    ∀ {rules : List QualityRule} {acc : ℚ} {e : Err},
      List.foldlM (fun acc rule =>
        if rule.only_short && !is_short then pure acc
        else if rule.target_channel ≠ "全部" && !(chanMatches r rule.target_channel) then
          pure acc
        else do
          let value ← floatOrZero (rowGet r rule.field)
          if rule.threshold ≤ value then pure (acc + rule.add) else pure acc)
        acc rules = .error e → e = .valueError := by
  intro rules
  induction rules with
  | nil => intro acc e h; simp [List.foldlM] at h
  | cons q t ih =>
      intro acc e h
      rw [List.foldlM_cons] at h
      by_cases hq1 : (q.only_short && !is_short) = true
      · rw [if_pos hq1] at h
        simp only [pure, Except.pure] at h
        exact ih (by simpa using h)
      · rw [if_neg (by simpa using hq1)] at h
        by_cases hq2 : (q.target_channel ≠ "全部" && !(chanMatches r q.target_channel)) = true
        · rw [if_pos hq2] at h
          simp only [pure, Except.pure] at h
          exact ih (by simpa using h)
        · rw [if_neg (by simpa using hq2)] at h
          cases hf : floatOrZero (rowGet r q.field) with
          | error e' =>
              rw [hf] at h
              simp at h
              rw [← h]
              exact floatOrZero_error hf
          | ok v =>
              rw [hf] at h
              simp only [exceptBind_ok] at h
              by_cases hv : q.threshold ≤ v
              · rw [if_pos hv] at h
                simp only [pure, Except.pure] at h
                exact ih (by simpa using h)
              · rw [if_neg hv] at h
                simp only [pure, Except.pure] at h
                exact ih (by simpa using h)

theorem quality_extra_error {rules : List QualityRule} {r : Row} {e : Err}
    (h : quality_extra rules r = .error e) : e = .valueError := by
  unfold quality_extra at h
  exact quality_fold_error h

theorem annotateRow_error {cfg : Config} {S : ℚ} {r : Row} {e : Err}
    (h : annotateRow cfg S r = .error e) : e = .valueError := by
  unfold annotateRow at h
  cases hb : calc_base_reward cfg S r with
  | error e1 =>
      rw [hb] at h
      simp at h
      rw [← h]
      exact calc_base_reward_error hb
  | ok b =>
      rw [hb] at h
      simp only [exceptBind_ok] at h
      cases ht : calc_time_bonus cfg.time_rules (rowSet r "基础奖励" (.num b)) with
      | error e2 =>
          rw [ht] at h
          simp at h
          rw [← h]
          exact calc_time_bonus_error ht
      | ok tb =>
          rw [ht] at h
          simp only [exceptBind_ok] at h
          cases hq : quality_extra cfg.quality_rules
              (rowSet (rowSet (rowSet r "基础奖励" (.num b)) "限时奖励" (.num tb))
                "平台加成"
                (.num (bilibili_extra
                  (rowSet (rowSet r "基础奖励" (.num b)) "限时奖励" (.num tb))))) with
          | error e3 =>
              rw [hq] at h
              simp at h
              rw [← h]
              exact quality_extra_error hq
          | ok qb => rw [hq] at h; simp at h

/-- C2: `compute_rewards` raises an input-validation error exactly when,
after alias resolution, a required column (channel, play count, content
type) is missing or no identity column is present; when required columns
are missing the error carries exactly the missing ones and its message
names each of them; on every other dataset no validation error is raised
(the only other possible failure is a float-conversion error, which is
not a validation error). -/
theorem C2_validation_errors (df : DataFrame) (rule : RuleObj) :
    (isValidationErr (compute_rewards df rule) = true ↔
      (missingBaseOf df ≠ [] ∨ hasIdentityCol df = false)) ∧
    (missingBaseOf df ≠ [] →
      compute_rewards df rule = .error (.missingBase (missingBaseOf df)) ∧
      ∀ c ∈ missingBaseOf df,
        strContains (errMsg (.missingBase (missingBaseOf df))) c = true) ∧
    (missingBaseOf df = [] → hasIdentityCol df = false →
      compute_rewards df rule = .error .missingIdentity) := by
  unfold compute_rewards
  by_cases h1 : (!(missingBaseOf df).isEmpty) = true
  · have hne : missingBaseOf df ≠ [] := by
      simpa [List.isEmpty_iff] using h1
    rw [if_pos h1]
    exact ⟨⟨fun _ => Or.inl hne, fun _ => rfl⟩,
           fun _ => ⟨rfl, fun c hc => errMsg_mentions hc⟩,
           fun he => (hne he).elim⟩
  · have hemp : missingBaseOf df = [] := by
      simpa [List.isEmpty_iff] using h1
    rw [if_neg h1]
    by_cases h2 : (!hasIdentityCol df) = true
    · have hid : hasIdentityCol df = false := by simpa using h2
      rw [if_pos h2]
      exact ⟨⟨fun _ => Or.inr hid, fun _ => rfl⟩,
             fun hne => (hne hemp).elim,
             fun _ _ => rfl⟩
    · have hid : hasIdentityCol df = true := by simpa using h2
      rw [if_neg h2]
      cases hmap : mapE (annotateRow (extract_rule_config rule) (poolSum df rule))
          (workOf df).rows with
      | error e =>
          obtain ⟨a, _, ha⟩ := mapE_error_exists _ hmap
          have hev : e = .valueError := annotateRow_error ha
          subst hev
          simp only [hmap]
          refine ⟨⟨fun hv => by simp [isValidationErr] at hv, fun hor => ?_⟩,
                  fun hne => (hne hemp).elim,
                  fun _ hf => by rw [hid] at hf; cases hf⟩
          rcases hor with h | h
          · exact (h hemp).elim
          · rw [hid] at h; cases h
      | ok rows2 =>
          simp only [hmap]
          refine ⟨⟨fun hv => by simp [isValidationErr] at hv, fun hor => ?_⟩,
                  fun hne => (hne hemp).elim,
                  fun _ hf => by rw [hid] at hf; cases hf⟩
          rcases hor with h | h
          · exact (h hemp).elim
          · rw [hid] at h; cases h

/-! ### Tier lookup: the first qualifying tier in descending order is a
maximal qualifying tier -/

theorem find?_desc_max {plays : ℚ} :
    ∀ {l : List TierRow},
      List.Pairwise (fun a b => b.threshold ≤ a.threshold) l →
      ∀ {t : TierRow}, l.find? (fun t => decide (t.threshold ≤ plays)) = some t →
        t ∈ l ∧ t.threshold ≤ plays ∧
          ∀ u ∈ l, u.threshold ≤ plays → u.threshold ≤ t.threshold := by
  intro l
  induction l with
  | nil => intro _ t h; simp at h
  | cons a l' ih =>
      intro hp t h
      rw [List.find?_cons] at h
      by_cases ha : (a.threshold ≤ plays)
      · rw [show decide (a.threshold ≤ plays) = true by simpa using ha] at h
        cases h
        refine ⟨List.mem_cons_self _ _, ha, ?_⟩
        intro u hu _
        rcases List.mem_cons.mp hu with h1 | h2
        · exact h1 ▸ le_refl _
        · exact (List.pairwise_cons.mp hp).1 u h2
      · rw [show decide (a.threshold ≤ plays) = false by simpa using ha] at h
        obtain ⟨hmem, hq, hmax⟩ := ih (List.pairwise_cons.mp hp).2 h
        refine ⟨List.mem_cons_of_mem _ hmem, hq, ?_⟩
        intro u hu huq
        rcases List.mem_cons.mp hu with h1 | h2
        · exact absurd (h1 ▸ huq) ha
        · exact hmax u h2 huq

theorem sortTiersDesc_pairwise (table : List TierRow) :
    List.Pairwise (fun a b => b.threshold ≤ a.threshold) (sortTiersDesc table) := by
  haveI : IsTotal TierRow (fun a b => b.threshold ≤ a.threshold) :=
    ⟨fun a b => le_total b.threshold a.threshold⟩
  haveI : IsTrans TierRow (fun a b => b.threshold ≤ a.threshold) :=
    ⟨fun _ _ _ h1 h2 => le_trans h2 h1⟩
  exact List.sorted_insertionSort _ table

theorem sortTiersDesc_mem {table : List TierRow} {t : TierRow} :
    t ∈ sortTiersDesc table ↔ t ∈ table := by
  unfold sortTiersDesc
  exact List.mem_insertionSort _

/-- C4: in Tiered mode, the base reward of a non-empty channel equals the
per-channel amount (0 when the tier has no column for the channel) of a
tier whose threshold is ≤ the play count (inclusive boundary) and is
maximal among all qualifying tiers; it is 0 when no tier qualifies, and 0
when the channel is empty. -/
theorem C4_tiered_base_reward (channel : String) (plays : ℚ) (table : List TierRow) :
    (channel = "" → pick_base_reward channel plays table = .ok 0) ∧
    ((∀ u ∈ table, ¬ u.threshold ≤ plays) →
      pick_base_reward channel plays table = .ok 0) ∧
    (channel ≠ "" → ∀ t0 ∈ table, t0.threshold ≤ plays →
      ∃ t ∈ table, t.threshold ≤ plays ∧
        (∀ u ∈ table, u.threshold ≤ plays → u.threshold ≤ t.threshold) ∧
        pick_base_reward channel plays table =
          tierAmount t (normalize_channel (.str channel))) ∧
    (∀ t : TierRow,
      (t.amounts.find? (fun p => p.1 = normalize_channel (.str channel))) = none →
      tierAmount t (normalize_channel (.str channel)) = .ok 0) := by
  refine ⟨?_, ?_, ?_, ?_⟩
  · intro hc
    simp [pick_base_reward, hc]
  · intro hnone
    unfold pick_base_reward
    by_cases hc : channel = ""
    · simp [hc]
    · rw [if_neg hc]
      have : (sortTiersDesc table).find? (fun t => decide (t.threshold ≤ plays)) = none := by
        rw [List.find?_eq_none]
        intro u hu
        simpa using hnone u (sortTiersDesc_mem.mp hu)
      rw [this]
  · intro hc t0 ht0 hq0
    have hsome : ((sortTiersDesc table).find? (fun t => decide (t.threshold ≤ plays))).isSome := by
      rw [List.find?_isSome]
      exact ⟨t0, sortTiersDesc_mem.mpr ht0, by simpa using hq0⟩
    obtain ⟨t, hfind⟩ := Option.isSome_iff_exists.mp hsome
    obtain ⟨hmem, hq, hmax⟩ := find?_desc_max (sortTiersDesc_pairwise table) hfind
    refine ⟨t, sortTiersDesc_mem.mp hmem, hq, ?_, ?_⟩
    · intro u hu huq
      exact hmax u (sortTiersDesc_mem.mpr hu) huq
    · unfold pick_base_reward
      rw [if_neg hc, hfind]
  · intro t hnone
    simp [tierAmount, hnone, floatOrZero]

theorem C4_tiered_base_reward_witness :
    ∃ t ∈ DEFAULT_REWARD_TABLE, t.threshold ≤ (150000 : ℚ) ∧
      (∀ u ∈ DEFAULT_REWARD_TABLE, u.threshold ≤ (150000 : ℚ) → u.threshold ≤ t.threshold) ∧
      pick_base_reward "抖音/视频号" 150000 DEFAULT_REWARD_TABLE =
        tierAmount t (normalize_channel (.str "抖音/视频号")) :=
  (C4_tiered_base_reward "抖音/视频号" 150000 DEFAULT_REWARD_TABLE).2.2.1
    (by decide)
    ⟨"10w+", 100000, [("抖音/视频号", .num 30), ("小红书", .num 90), ("B站", .num 180)]⟩
    (by decide) (by decide)

/-- C6 (amended): for a quality rule with threshold 0 whose short-video
and channel gates pass, the rule qualifies when the row's target field is
absent or holds a falsy value (`0`, `""`, `False`, `None`) — those
default to 0 before the `≥ threshold` comparison; but a non-empty
non-numeric string in the target field makes the computation raise a
conversion error instead of defaulting to 0 (see the counterexample). -/
theorem C6_zero_threshold_default (r : Row) (q : QualityRule)
    (hth : q.threshold = 0)
    (hshort : q.only_short = true → isShortRow r = true)
    (hchan : q.target_channel = "全部" ∨ chanMatches r q.target_channel = true)
    (hfield : rowGet r q.field = none ∨
      ∃ c, rowGet r q.field = some c ∧ pyFalsy c = true) :
    quality_extra [q] r = .ok q.add := by
  unfold quality_extra
  simp only [List.foldlM_cons, List.foldlM_nil]
  have hg1 : (q.only_short && !isShortRow r) = false := by
    cases hos : q.only_short
    · simp
    · simp [hshort hos]
  have hg2 : (q.target_channel ≠ "全部" && !(chanMatches r q.target_channel)) = false := by
    rcases hchan with h | h
    · simp [h]
    · simp [h]
  rw [hg1, hg2]
  simp only [Bool.false_eq_true, if_false]
  have hv : floatOrZero (rowGet r q.field) = .ok 0 := by
    rcases hfield with h | ⟨c, hc, hf⟩
    · simp [h, floatOrZero]
    · simp [hc, floatOrZero, hf]
  rw [hv]
  simp [hth]

theorem C6_zero_threshold_default_witness :
    quality_extra [wQRule0] wRowNoField = .ok wQRule0.add :=
  C6_zero_threshold_default wRowNoField wQRule0 rfl
    (by intro h; cases h) (Or.inl rfl) (Or.inl (by decide))

/-- C6 counterexample: the same threshold-0 rule on a row whose target
field holds the non-numeric string `"abc"`: the claim says the field
value defaults to 0 so the rule qualifies, but the computation instead
raises a float-conversion error. -/
theorem C6_nonnumeric_field_cex :
    quality_extra [wQRule0] wRowBadField = .error .valueError := rfl

/-! ### Pool-share arithmetic -/

theorem pool_map_sum (T m S : ℚ) :
    ∀ l : List ℚ,
      ((l.map (fun p => if p < m then 0 else T * p / S)).sum)
        = T * ((l.filter (fun p => decide (m ≤ p))).sum) / S := by
  intro l
  induction l with
  | nil => simp
  | cons p t ih =>
      by_cases hp : p < m
      · have hd : decide (m ≤ p) = false := by simp [not_le.mpr hp]
        simp only [List.map_cons, List.sum_cons, List.filter_cons, hd,
          Bool.false_eq_true, if_false, if_pos hp, ih, zero_add]
      · have hmp : m ≤ p := not_lt.mp hp
        have hd : decide (m ≤ p) = true := by simpa using hmp
        simp only [List.map_cons, List.sum_cons, List.filter_cons, hd, if_true,
          if_neg hp, ih, List.sum_cons]
        ring

theorem pool_sum_formula (ps : List ℚ) (T m S : ℚ)
    (hS : S = (ps.filter (fun p => decide (m ≤ p))).sum) (hne : S ≠ 0) :
    ((ps.map (fun p => if p < m then 0 else T * p / S)).sum) = T := by
  rw [pool_map_sum, ← hS, mul_div_assoc, div_self hne, mul_one]

/-- `calc_base_reward` in pool-share mode on a row with a numeric play
count. -/
theorem calc_base_pool {cfg : Config} (hmode : cfg.base_mode = "瓜分")
    (S : ℚ) (r : Row) (p : ℚ) (hp : rowGet r "播放量" = some (.num p)) :
    calc_base_reward cfg S r =
      .ok (if S = 0 then 0
           else if p < (((cfg.base_params.pool).getD ⟨none, none⟩).min_play).getD 0 then 0
           else (((cfg.base_params.pool).getD ⟨none, none⟩).total).getD 0 * p / S) := by
  unfold calc_base_reward
  rw [hmode]
  simp only [show (("瓜分" : String) = "") = False by simp,
    show (("瓜分" : String) = "CPM") = False by simp,
    show (("瓜分" : String) = "瓜分") = True by simp, if_false, if_true]
  by_cases hS : S = 0
  · simp [hS]
  · rw [if_neg hS, if_neg hS]
    have hpl : playsE r = .ok p := by
      unfold playsE
      rw [hp]
      rfl
    rw [hpl]
    simp only [exceptBind_ok]
    by_cases hlt : p < (((cfg.base_params.pool).getD ⟨none, none⟩).min_play).getD 0
    · rw [if_pos hlt, if_pos hlt]; rfl
    · rw [if_neg hlt, if_neg hlt]; rfl

/-- A successful computation decomposes into annotated rows, the stable
sort, and the status pass. -/
theorem compute_ok_decomp {df : DataFrame} {rule : RuleObj}
    (hok : okB (compute_rewards df rule) = true) :
    ∃ rows2 : List Row,
      mapE (annotateRow (extract_rule_config rule) (poolSum df rule)) (workOf df).rows
        = .ok rows2 ∧
      resultRows df rule = (sortRows rows2).map statusRow := by
  unfold okB compute_rewards at hok
  simp only [] at hok
  unfold resultRows compute_rewards
  simp only []
  by_cases h1 : (!(missingBaseOf df).isEmpty) = true
  · rw [if_pos h1] at hok; simp at hok
  · rw [if_neg h1] at hok
    rw [if_neg h1]
    by_cases h2 : (!hasIdentityCol df) = true
    · rw [if_pos h2] at hok; simp at hok
    · rw [if_neg h2] at hok
      rw [if_neg h2]
      cases hmap : mapE (annotateRow (extract_rule_config rule) (poolSum df rule))
          (workOf df).rows with
      | error e => rw [hmap] at hok; simp at hok
      | ok rows2 => exact ⟨rows2, rfl, rfl⟩

theorem getNumD_statusRow (r : Row) {c : String} (h : c ≠ "状态") :
    getNumD (statusRow r) c = getNumD r c := by
  unfold getNumD
  rw [statusRow_get_ne r h]

/-- Every row of the normalized table has a numeric play count equal to
its `playOf`. -/
theorem workOf_play {df : DataFrame} {r0 : Row} (h : r0 ∈ (workOf df).rows) :
    rowGet r0 "播放量" = some (.num (playOf r0)) := by
  simp only [workOf, normalizeWork, List.mem_map] at h
  obtain ⟨raw, _, hraw⟩ := h
  have := normRow_get_play ((align_columns df).cols.contains "点赞")
    ((align_columns df).cols.contains "评论数")
    ((align_columns df).cols.contains "期数")
    (textColsFrom (normCols (align_columns df).cols)) raw
  rw [hraw] at this
  unfold playOf getNumD
  rw [this]

theorem forall2_map_sum {α β : Type} {R : α → β → Prop} (f : β → ℚ) (g : α → ℚ) :
    ∀ {l : List α} {l' : List β}, List.Forall₂ R l l' →
      (∀ a ∈ l, ∀ b, R a b → f b = g a) →
      (l'.map f).sum = (l.map g).sum := by
  intro l l' h
  induction h with
  | nil => intro _; simp
  | cons hR hT ih =>
      intro hfg
      simp only [List.map_cons, List.sum_cons]
      rw [hfg _ (List.mem_cons_self _ _) _ hR,
        ih (fun a ha b hb => hfg a (List.mem_cons_of_mem _ ha) b hb)]

/-- C1 (amended): in pool-share mode, whenever the computation succeeds,
if the play counts of the qualifying rows do not sum to zero then the
base rewards over all result rows sum exactly (rational arithmetic) to
the configured pool total; and when the qualifying play counts sum to
zero — in particular when no row qualifies — every row's base reward is
0. (The claim as frozen asks for the first conclusion whenever at least
one row qualifies; the counterexample shows a qualifying row with a
zero qualifying-play sum, where every base reward is 0 instead.) -/
theorem C1_pool_share_sum (df : DataFrame) (rule : RuleObj)
    (hmode : (extract_rule_config rule).base_mode = "瓜分")
    (hok : okB (compute_rewards df rule) = true) :
    (poolSum df rule ≠ 0 → sumBase (resultRows df rule) = poolTotalOf rule) ∧
    (poolSum df rule = 0 → ∀ r ∈ resultRows df rule, getNumD r "基础奖励" = 0) := by
  obtain ⟨rows2, hmap, hres⟩ := compute_ok_decomp hok
  have hall := mapE_ok_forall2 _ hmap
  have hbase : ∀ r0 ∈ (workOf df).rows, ∀ rA : Row,
      annotateRow (extract_rule_config rule) (poolSum df rule) r0 = .ok rA →
      getNumD rA "基础奖励" =
        (fun p => if poolSum df rule = 0 then 0
         else if p < poolMinOf rule then 0
         else poolTotalOf rule * p / poolSum df rule) (playOf r0) := by
    intro r0 h0 rA hA
    obtain ⟨b, tb, pb, qb, hcalc, hgb, _⟩ := annotateRow_ok _ _ _ _ hA
    have hp := workOf_play h0
    have hform := calc_base_pool hmode (poolSum df rule) r0 (playOf r0) hp
    rw [hcalc, Except.ok.injEq] at hform
    have hget : getNumD rA "基础奖励" = b := by
      unfold getNumD
      rw [hgb]
    simp only [poolMinOf, poolTotalOf]
    rw [hget, hform]
  have hsumA : sumBase (resultRows df rule) = sumBase rows2 := by
    rw [hres]
    unfold sumBase
    rw [List.map_map]
    have hcongr : (sortRows rows2).map ((fun r => getNumD r "基础奖励") ∘ statusRow)
        = (sortRows rows2).map (fun r => getNumD r "基础奖励") :=
      List.map_congr_left (fun r _ => getNumD_statusRow r (by decide))
    rw [hcongr]
    exact List.Perm.sum_eq (List.Perm.map _ (List.perm_insertionSort _ rows2))
  have hsumB : sumBase rows2 =
      (((workOf df).rows.map playOf).map
        (fun p => if poolSum df rule = 0 then 0
         else if p < poolMinOf rule then 0
         else poolTotalOf rule * p / poolSum df rule)).sum := by
    unfold sumBase
    rw [List.map_map]
    exact forall2_map_sum _ _ hall hbase
  constructor
  · intro hne
    rw [hsumA, hsumB]
    have hfun : (fun p : ℚ => if poolSum df rule = 0 then 0
        else if p < poolMinOf rule then 0
        else poolTotalOf rule * p / poolSum df rule)
        = (fun p : ℚ => if p < poolMinOf rule then 0
            else poolTotalOf rule * p / poolSum df rule) := by
      funext p
      rw [if_neg hne]
    rw [hfun]
    refine pool_sum_formula _ _ _ _ ?_ hne
    unfold poolSum
    rw [if_pos hmode]
  · intro hzero
    intro r hr
    rw [hres] at hr
    obtain ⟨rA, hrA, hrs⟩ := List.mem_map.mp hr
    have hmem : rA ∈ rows2 := by simpa [sortRows] using hrA
    obtain ⟨r0, h0, hA⟩ := forall2_mem_right hall hmem
    have := hbase r0 h0 rA hA
    rw [← hrs, getNumD_statusRow rA (by decide), this]
    simp [hzero]

set_option maxRecDepth 8000 in
attribute [local semireducible] Rat.add Rat.mul Rat.inv Rat.sub Rat.ofScientific in
theorem C1_pool_share_sum_witness :
    sumBase (resultRows wDfPool1 wRulePool1) = poolTotalOf wRulePool1 :=
  (C1_pool_share_sum wDfPool1 wRulePool1 (by decide) (by decide)).1 (by decide)

set_option maxRecDepth 8000 in
attribute [local semireducible] Rat.add Rat.mul Rat.inv Rat.sub Rat.ofScientific in
/-- C1 counterexample: pool-share with minimum-play threshold 0 and pool
total 100, on one valid row with play count 0. The row qualifies (its
play count is ≥ the threshold), yet the sum of the base rewards is 0,
not the pool total: the qualifying play counts sum to 0, so the code's
`S == 0` guard zeroes every reward. -/
theorem C1_pool_share_cex :
    (extract_rule_config wRulePool0).base_mode = "瓜分" ∧
    okB (compute_rewards wDfPool0 wRulePool0) = true ∧
    (∃ r ∈ resultRows wDfPool0 wRulePool0,
      poolMinOf wRulePool0 ≤ getNumD r "播放量") ∧
    poolTotalOf wRulePool0 = 100 ∧
    sumBase (resultRows wDfPool0 wRulePool0) = 0 := by
  refine ⟨rfl, by decide, ?_, by decide, by decide⟩
  decide

/-! ### Exclusion: the scan depends only on the text columns -/

theorem detect_exclusion_congr {r r' : Row} {tcs : List String}
    (h : ∀ c ∈ tcs, rowGet r c = rowGet r' c) :
    detect_exclusion r tcs = detect_exclusion r' tcs := by
  unfold detect_exclusion
  have : tcs.map (fun c => (rowGet r c).elim "" pyStr)
       = tcs.map (fun c => (rowGet r' c).elim "" pyStr) :=
    List.map_congr_left (fun c hc => by rw [h c hc])
  rw [this]

theorem textCols_not_written :
    (REQUIRED_BASE_COLUMNS ++ OPTIONAL_TEXT_COLUMNS).all
      (fun c => !ANNOT_KEYS.contains c && !(c = "状态") && !(c = "排除原因")) = true := by
  decide

/-- C3: for every result row, the exclusion-reason cell equals the
exclusion scan of the row's text columns (which reports the first
matching keyword); an excluded row has its status set to that reason and
its total force-zeroed while its base reward and all bonus columns are
still present as computed numbers; a non-excluded row has status `计入`
and total = base + time bonus + platform bonus + quality bonus. -/
theorem C3_exclusion_zeroes_total (df : DataFrame) (rule : RuleObj) (r : Row)
    (hr : r ∈ resultRows df rule) :
    ∃ b tb pb qb : ℚ,
      rowGet r "基础奖励" = some (.num b) ∧
      rowGet r "限时奖励" = some (.num tb) ∧
      rowGet r "平台加成" = some (.num pb) ∧
      rowGet r "优质加成" = some (.num qb) ∧
      rowGet r "排除原因" =
        some ((detect_exclusion r (textColsOf df)).elim Cell.null Cell.str) ∧
      (∀ s : String, detect_exclusion r (textColsOf df) = some s →
        rowGet r "状态" = some (.str s) ∧ rowGet r "总奖励" = some (.num 0)) ∧
      (detect_exclusion r (textColsOf df) = none →
        rowGet r "状态" = some (.str "计入") ∧
        rowGet r "总奖励" = some (.num (b + tb + pb + qb))) := by
  obtain ⟨r0, h0, rA, hA, hst⟩ := resultRows_mem hr
  obtain ⟨b, tb, pb, qb, hcalc, hgb, hgt, hgp, hgq, hgm, hgtot, hpres⟩ :=
    annotateRow_ok _ _ _ _ hA
  -- the normalized row r0 and its stored exclusion cell
  simp only [workOf, normalizeWork, List.mem_map] at h0
  obtain ⟨raw, _, hraw⟩ := h0
  have hexc0 : rowGet r0 "排除原因" =
      some ((detect_exclusion (normCore ((align_columns df).cols.contains "点赞")
        ((align_columns df).cols.contains "评论数")
        ((align_columns df).cols.contains "期数") raw)
        (textColsOf df)).elim Cell.null Cell.str) := by
    rw [← hraw]
    exact normRow_get_excl _ _ _ _ raw
  -- text columns coincide on r and on the pre-exclusion row
  have htext : ∀ c ∈ textColsOf df, rowGet r c =
      rowGet (normCore ((align_columns df).cols.contains "点赞")
        ((align_columns df).cols.contains "评论数")
        ((align_columns df).cols.contains "期数") raw) c := by
    intro c hc
    have hc9 : c ∈ REQUIRED_BASE_COLUMNS ++ OPTIONAL_TEXT_COLUMNS :=
      (List.mem_filter.mp hc).1
    have hprops := List.all_eq_true.mp textCols_not_written c hc9
    simp only [Bool.and_eq_true, Bool.not_eq_true', decide_eq_false_iff_not] at hprops
    obtain ⟨⟨hnk, hns⟩, hne⟩ := hprops
    have hnk' : c ∉ ANNOT_KEYS := by
      intro hmem
      have : ANNOT_KEYS.contains c = true := by
        exact List.elem_eq_true_of_mem hmem
      rw [this] at hnk
      cases hnk
    rw [hst, statusRow_get_ne rA hns, hpres c hnk', ← hraw]
    unfold normRow
    rw [rowGet_rowSet_ne _ hne]
  have hdet : detect_exclusion r (textColsOf df) =
      detect_exclusion (normCore ((align_columns df).cols.contains "点赞")
        ((align_columns df).cols.contains "评论数")
        ((align_columns df).cols.contains "期数") raw) (textColsOf df) :=
    detect_exclusion_congr htext
  -- the exclusion cell as seen on r itself
  have hexcA : rowGet rA "排除原因" = rowGet r0 "排除原因" :=
    hpres "排除原因" (by decide)
  have hexcR : rowGet r "排除原因" =
      some ((detect_exclusion r (textColsOf df)).elim Cell.null Cell.str) := by
    rw [hst, statusRow_get_ne rA (by decide), hexcA, hexc0, ← hdet, ← hst]
  -- status
  have hmark : getStrD rA "超额标记" = "" := by
    unfold getStrD
    rw [hgm]
  refine ⟨b, tb, pb, qb, ?_, ?_, ?_, ?_, hexcR, ?_, ?_⟩
  · rw [hst, statusRow_get_ne rA (by decide)]; exact hgb
  · rw [hst, statusRow_get_ne rA (by decide)]; exact hgt
  · rw [hst, statusRow_get_ne rA (by decide)]; exact hgp
  · rw [hst, statusRow_get_ne rA (by decide)]; exact hgq
  · intro s hs
    have hcell : rowGet rA "排除原因" = some (.str s) := by
      rw [hexcA, hexc0, ← hdet, hs]
      rfl
    constructor
    · rw [hst, statusRow_get_status rA, hcell]
      simp [notnaO]
    · rw [hst, statusRow_get_ne rA (by decide), hgtot]
      have : notnaO (rowGet r0 "排除原因") = true := by
        rw [← hexcA, hcell]
        rfl
      rw [this]
      simp
  · intro hnone
    have hcell : rowGet rA "排除原因" = some Cell.null := by
      rw [hexcA, hexc0, ← hdet, hnone]
      rfl
    constructor
    · rw [hst, statusRow_get_status rA, hcell]
      simp [notnaO, hmark]
    · rw [hst, statusRow_get_ne rA (by decide), hgtot]
      have : notnaO (rowGet r0 "排除原因") = false := by
        rw [← hexcA, hcell]
        rfl
      rw [this]
      simp

set_option maxRecDepth 8000 in
attribute [local semireducible] Rat.add Rat.mul Rat.inv Rat.sub Rat.ofScientific in
theorem C3_exclusion_zeroes_total_witness :
    ∃ b tb pb qb : ℚ,
      rowGet wRowExcl "基础奖励" = some (.num b) ∧
      rowGet wRowExcl "限时奖励" = some (.num tb) ∧
      rowGet wRowExcl "平台加成" = some (.num pb) ∧
      rowGet wRowExcl "优质加成" = some (.num qb) ∧
      rowGet wRowExcl "排除原因" =
        some ((detect_exclusion wRowExcl (textColsOf wDfExcl)).elim Cell.null Cell.str) ∧
      (∀ s : String, detect_exclusion wRowExcl (textColsOf wDfExcl) = some s →
        rowGet wRowExcl "状态" = some (.str s) ∧ rowGet wRowExcl "总奖励" = some (.num 0)) ∧
      (detect_exclusion wRowExcl (textColsOf wDfExcl) = none →
        rowGet wRowExcl "状态" = some (.str "计入") ∧
        rowGet wRowExcl "总奖励" = some (.num (b + tb + pb + qb))) :=
  C3_exclusion_zeroes_total wDfExcl .other wRowExcl (by decide)

/-! ### The sort order: totality, transitivity, stability -/

theorem lexStep_true_iff {α : Type} [LinearOrder α] (x y : α) (r : Bool) :
    lexStep x y r = true ↔ (x = y ∧ r = true) ∨ x < y := by
  unfold lexStep
  by_cases h : x = y
  · simp [h, lt_irrefl]
  · simp [h]

theorem rowLeB_total (a b : Row) : rowLeB a b = true ∨ rowLeB b a = true := by
  unfold rowLeB
  simp only [lexStep_true_iff]
  rcases lt_trichotomy (sortKey4 a).1 (sortKey4 b).1 with h1 | h1 | h1
  · exact Or.inl (Or.inr h1)
  · rcases lt_trichotomy (sortKey4 a).2.1 (sortKey4 b).2.1 with h2 | h2 | h2
    · exact Or.inl (Or.inl ⟨h1, Or.inr h2⟩)
    · rcases lt_trichotomy (sortKey4 a).2.2.1 (sortKey4 b).2.2.1 with h3 | h3 | h3
      · exact Or.inl (Or.inl ⟨h1, Or.inl ⟨h2, Or.inr h3⟩⟩)
      · rcases lt_trichotomy (sortKey4 b).2.2.2 (sortKey4 a).2.2.2 with h4 | h4 | h4
        · exact Or.inl (Or.inl ⟨h1, Or.inl ⟨h2, Or.inl ⟨h3, Or.inr h4⟩⟩⟩)
        · exact Or.inl (Or.inl ⟨h1, Or.inl ⟨h2, Or.inl ⟨h3, Or.inl ⟨h4, trivial⟩⟩⟩⟩)
        · exact Or.inr (Or.inl ⟨h1.symm, Or.inl ⟨h2.symm, Or.inl ⟨h3.symm, Or.inr h4⟩⟩⟩)
      · exact Or.inr (Or.inl ⟨h1.symm, Or.inl ⟨h2.symm, Or.inr h3⟩⟩)
    · exact Or.inr (Or.inl ⟨h1.symm, Or.inr h2⟩)
  · exact Or.inr (Or.inr h1)

theorem rowLeB_trans {a b c : Row} (hab : rowLeB a b = true) (hbc : rowLeB b c = true) :
    rowLeB a c = true := by
  unfold rowLeB at hab hbc ⊢
  simp only [lexStep_true_iff] at hab hbc ⊢
  rcases hab with ⟨e1, hab⟩ | l1
  · rcases hbc with ⟨f1, hbc⟩ | m1
    · refine Or.inl ⟨e1.trans f1, ?_⟩
      rcases hab with ⟨e2, hab⟩ | l2
      · rcases hbc with ⟨f2, hbc⟩ | m2
        · refine Or.inl ⟨e2.trans f2, ?_⟩
          rcases hab with ⟨e3, hab⟩ | l3
          · rcases hbc with ⟨f3, hbc⟩ | m3
            · refine Or.inl ⟨e3.trans f3, ?_⟩
              rcases hab with ⟨e4, _⟩ | l4
              · rcases hbc with ⟨f4, _⟩ | m4
                · exact Or.inl ⟨f4.trans e4, trivial⟩
                · exact Or.inr (e4 ▸ m4)
              · rcases hbc with ⟨f4, _⟩ | m4
                · exact Or.inr (f4 ▸ l4)
                · exact Or.inr (m4.trans l4)
            · exact Or.inr (e3 ▸ m3)
          · rcases hbc with ⟨f3, _⟩ | m3
            · exact Or.inr (f3 ▸ l3)
            · exact Or.inr (l3.trans m3)
        · exact Or.inr (e2 ▸ m2)
      · rcases hbc with ⟨f2, _⟩ | m2
        · exact Or.inr (f2 ▸ l2)
        · exact Or.inr (l2.trans m2)
    · exact Or.inr (e1 ▸ m1)
  · rcases hbc with ⟨f1, _⟩ | m1
    · exact Or.inr (f1 ▸ l1)
    · exact Or.inr (l1.trans m1)

theorem rowLeB_of_key_eq {a b : Row} (h : sortKey4 a = sortKey4 b) :
    rowLeB a b = true := by
  unfold rowLeB
  rw [h]
  simp [lexStep]

theorem resultLe_of_rowLeB {a b : Row} (h : rowLeB a b = true) : resultLe a b := by
  unfold rowLeB at h
  simp only [lexStep_true_iff] at h
  unfold resultLe
  have k1 : (sortKey4 a).1 = getStrD a "期数" := rfl
  have k2 : (sortKey4 a).2.1 = getStrD a "账号标识" := rfl
  have k3 : (sortKey4 a).2.2.1 = getStrD a "作品标识" := rfl
  have k4 : (sortKey4 a).2.2.2 = getNumD a "总奖励" := rfl
  have j1 : (sortKey4 b).1 = getStrD b "期数" := rfl
  have j2 : (sortKey4 b).2.1 = getStrD b "账号标识" := rfl
  have j3 : (sortKey4 b).2.2.1 = getStrD b "作品标识" := rfl
  have j4 : (sortKey4 b).2.2.2 = getNumD b "总奖励" := rfl
  rw [k1, k2, k3, k4, j1, j2, j3, j4] at h
  rcases h with ⟨e1, h⟩ | l1
  · refine Or.inr ⟨e1, ?_⟩
    rcases h with ⟨e2, h⟩ | l2
    · refine Or.inr ⟨e2, ?_⟩
      rcases h with ⟨e3, h⟩ | l3
      · refine Or.inr ⟨e3, ?_⟩
        rcases h with ⟨e4, _⟩ | l4
        · exact le_of_eq e4
        · exact le_of_lt l4
      · exact Or.inl l3
    · exact Or.inl l2
  · exact Or.inl l1

theorem filter_orderedInsert {α : Type} (rel : α → α → Prop) [DecidableRel rel]
    (p : α → Bool) (a : α) :
    ∀ m : List α, (∀ b ∈ m, p b = true → p a = true → rel a b) →
      (List.orderedInsert rel a m).filter p
        = if p a then a :: m.filter p else m.filter p := by
  intro m
  induction m with
  | nil =>
      intro _
      by_cases hpa : p a = true <;> simp [List.orderedInsert, List.filter, hpa]
  | cons b t ih =>
      intro h
      rw [List.orderedInsert]
      by_cases hr : rel a b
      · rw [if_pos hr]
        by_cases hpa : p a = true <;> simp [List.filter, hpa]
      · rw [if_neg hr]
        have ih' := ih (fun c hc => h c (List.mem_cons_of_mem _ hc))
        by_cases hpb : p b = true
        · have hpa : ¬ p a = true := fun hpa => hr (h b (List.mem_cons_self _ _) hpb hpa)
          simp [List.filter, hpb, hpa, ih']
        · by_cases hpa : p a = true <;> simp [List.filter, hpb, hpa, ih']

theorem filter_insertionSort {α : Type} (rel : α → α → Prop) [DecidableRel rel]
    (p : α → Bool) (l : List α) (h : ∀ a b, p a = true → p b = true → rel a b) :
    (List.insertionSort rel l).filter p = l.filter p := by
  induction l with
  | nil => rfl
  | cons a t ih =>
      rw [List.insertionSort]
      rw [filter_orderedInsert rel p a _ (fun b _ hpb hpa => h a b hpa hpb)]
      by_cases hpa : p a = true <;> simp [List.filter, hpa, ih]

theorem sortKey4_statusRow (r : Row) : sortKey4 (statusRow r) = sortKey4 r := by
  unfold sortKey4
  rw [getNumD_statusRow r (by decide)]
  have h1 : getStrD (statusRow r) "期数" = getStrD r "期数" := by
    unfold getStrD
    rw [statusRow_get_ne r (by decide)]
  have h2 : getStrD (statusRow r) "账号标识" = getStrD r "账号标识" := by
    unfold getStrD
    rw [statusRow_get_ne r (by decide)]
  have h3 : getStrD (statusRow r) "作品标识" = getStrD r "作品标识" := by
    unfold getStrD
    rw [statusRow_get_ne r (by decide)]
  rw [h1, h2, h3]

theorem rowLeB_statusRow (a b : Row) :
    rowLeB (statusRow a) (statusRow b) = rowLeB a b := by
  unfold rowLeB
  rw [sortKey4_statusRow, sortKey4_statusRow]

/-- Either the computation failed (both row lists empty) or it succeeded
and the result is the status-passed stable sort of the annotated rows. -/
theorem rows_decomp (df : DataFrame) (rule : RuleObj) :
    (resultRows df rule = [] ∧ preSortRows df rule = []) ∨
    ∃ rows2 : List Row,
      mapE (annotateRow (extract_rule_config rule) (poolSum df rule)) (workOf df).rows
        = .ok rows2 ∧
      resultRows df rule = (sortRows rows2).map statusRow ∧
      preSortRows df rule = rows2.map statusRow := by
  unfold resultRows preSortRows compute_rewards
  simp only []
  by_cases h1 : (!(missingBaseOf df).isEmpty) = true
  · rw [if_pos h1, if_pos h1]
    exact Or.inl ⟨rfl, rfl⟩
  · rw [if_neg h1, if_neg h1]
    by_cases h2 : (!hasIdentityCol df) = true
    · rw [if_pos h2, if_pos h2]
      exact Or.inl ⟨rfl, rfl⟩
    · rw [if_neg h2, if_neg h2]
      cases hmap : mapE (annotateRow (extract_rule_config rule) (poolSum df rule))
          (workOf df).rows with
      | error e => exact Or.inl ⟨rfl, rfl⟩
      | ok rows2 => exact Or.inr ⟨rows2, rfl, rfl, rfl⟩

/-- C7: the rows of the result table are sorted by period ascending,
then identity key ascending, then title key ascending, then total reward
descending; and the sort is stable — for every value of the four-part
key, the result's rows with that key are exactly the pre-sort rows with
that key, in their original input order. -/
theorem C7_result_sorted_stable (df : DataFrame) (rule : RuleObj) :
    List.Pairwise resultLe (resultRows df rule) ∧
    ∀ k : String × String × String × ℚ,
      (resultRows df rule).filter (fun r => decide (sortKey4 r = k))
        = (preSortRows df rule).filter (fun r => decide (sortKey4 r = k)) := by
  haveI : IsTotal Row (fun a b => rowLeB a b = true) := ⟨rowLeB_total⟩
  haveI : IsTrans Row (fun a b => rowLeB a b = true) := ⟨fun _ _ _ => rowLeB_trans⟩
  rcases rows_decomp df rule with ⟨h1, h2⟩ | ⟨rows2, hmap, h1, h2⟩
  · rw [h1, h2]
    exact ⟨List.Pairwise.nil, fun k => rfl⟩
  · have hcomm : (sortRows rows2).map statusRow = sortRows (rows2.map statusRow) := by
      unfold sortRows
      exact List.map_insertionSort (fun a b => rowLeB a b = true)
        (fun a b => rowLeB a b = true) statusRow rows2
        (fun a _ b _ => by simp only []; rw [rowLeB_statusRow])
    rw [h1, h2, hcomm]
    constructor
    · have hsorted : List.Pairwise (fun a b => rowLeB a b = true)
          (List.insertionSort (fun a b => rowLeB a b = true) (rows2.map statusRow)) :=
        List.sorted_insertionSort _ _
      exact hsorted.imp resultLe_of_rowLeB
    · intro k
      unfold sortRows
      refine filter_insertionSort _ _ _ ?_
      intro a b hpa hpb
      have ha : sortKey4 a = k := of_decide_eq_true hpa
      have hb : sortKey4 b = k := of_decide_eq_true hpb
      exact rowLeB_of_key_eq (ha.trans hb.symm)
